import Mathlib

/-!
The mvls register-program compiler for Marvell LinkStreet switches.

A shallow embedding of `src/mdio/mvls.c`.  The bus program is a list of
instructions that the driver only ever appends to; every builder of the
source (`mvls_read_to`, `mvls_write`, `mvls_wait`, ...) becomes a function
from the program built so far to the extended program.  Machine integers are
natural numbers with explicit truncation where the source narrows a value.
-/

namespace Mvls

/-! ## The bus program (declared in `mdio.h`) -/

/-- Modelled from the spec: the primitive operations of a bus program (read,
write, bitwise combine, add, conditional branch, capture), which `mdio.h`
declares and `mvls.c` names `READ`, `WRITE`, `AND`, `OR`, `ADD`, `JEQ`, `JNE`
and `EMIT`. -/
inductive Op where
  | READ | WRITE | AND | OR | ADD | JEQ | JNE | EMIT
  deriving DecidableEq, Repr

/-- Modelled from the spec: an instruction operand, with the two operand kinds
of the spec (immediate constant, working-register reference), the control kind
(a branch recorded at offset `src` whose target is offset `dst`) and the
literal `0` the source passes for an unused operand. -/
inductive Arg where
  | none
  | imm (n : Nat)
  | reg (r : Nat)
  | goto (src dst : Nat)
  deriving DecidableEq, Repr

/-- Modelled from the spec: one primitive operation with its three operands
(the `struct mdio_nl_insn` built by the `INSN` macro of `mdio.h`). -/
structure Insn where
  op : Op
  arg0 : Arg
  arg1 : Arg
  arg2 : Arg
  deriving DecidableEq, Repr

/-- Modelled from the spec: the `INSN` macro of `mdio.h`. -/
def INSN (op : Op) (a0 a1 a2 : Arg) : Insn := ⟨op, a0, a1, a2⟩

/-- Modelled from the spec: the `IMM` macro of `mdio.h`, an immediate constant
operand. -/
def IMM (n : Nat) : Arg := Arg.imm n

/-- Modelled from the spec: the `REG` macro of `mdio.h`, a working-register
reference. -/
def REG (r : Nat) : Arg := Arg.reg r

/-- Modelled from the spec: the `GOTO` macro of `mdio.h`, a branch operand
written at program offset `src` that targets program offset `dst`. -/
def GOTO (src dst : Nat) : Arg := Arg.goto src dst

/-- Modelled from the spec: the `BIT` macro of `mdio.h`; bit 15 is the
busy-indicator bit. -/
def BIT (n : Nat) : Nat := 1 <<< n

/-- Modelled from the spec: `mdio_prog_push` of `mdio.h`; the program is an
ordered, append-only sequence. -/
def mdio_prog_push (prog : List Insn) (insn : Insn) : List Insn := prog ++ [insn]

/-! ## Constants of `mvls.c` -/

def MVLS_CMD : Nat := 0
def MVLS_CMD_BUSY : Nat := BIT 15
def MVLS_CMD_C22 : Nat := BIT 12
def MVLS_DATA : Nat := 1
def MVLS_G1 : Nat := 0x1b
def MVLS_G2 : Nat := 0x1c

/-- `MVLS_REG(_port, _reg)`: `((_port) << 16) | (_reg)`. -/
def MVLS_REG (port reg : Nat) : Nat := (port <<< 16) ||| reg

/-- `enum mvls_famliy` (spelt as in the source). -/
inductive mvls_famliy where
  | FAM_UNKNOWN | FAM_SPINNAKER | FAM_OPAL | FAM_AGATE | FAM_PERIDOT | FAM_AMETHYST
  deriving DecidableEq, Repr

/-- `struct mvls_device`: the field `id` (a `uint16_t`) is the indirect
addressing identity, `0` for direct addressing. -/
structure mvls_device where
  id : Nat
  deriving DecidableEq, Repr

/-! ## Register addressing layer -/

/-- `mvls_multi_cmd(uint8_t port, uint8_t reg, bool write)`, returning
`uint16_t`: both parameters are narrowed to 8 bits, the result to 16. -/
def mvls_multi_cmd (port reg : Nat) (write : Bool) : Nat :=
  (MVLS_CMD_BUSY ||| MVLS_CMD_C22 ||| ((if write then 1 else 2) <<< 10) |||
    ((port % 256) <<< 5) ||| (reg % 256)) % 65536

/-- `mvls_wait_cmd(prog, uint8_t id)`: the identity is narrowed to 8 bits. -/
def mvls_wait_cmd (prog : List Insn) (id : Nat) : List Insn :=
  let id := id % 256
  let retry := prog.length
  let prog := mdio_prog_push prog (INSN Op.READ (IMM id) (IMM MVLS_CMD) (REG 0))
  let prog := mdio_prog_push prog (INSN Op.AND (REG 0) (IMM MVLS_CMD_BUSY) (REG 0))
  mdio_prog_push prog (INSN Op.JEQ (REG 0) (IMM MVLS_CMD_BUSY) (GOTO prog.length retry))

/-- `mvls_read_to(dev, prog, uint32_t reg, uint8_t to)`; the parameter `to` is named `dst` here. -/
def mvls_read_to (dev : mvls_device) (prog : List Insn) (reg : Nat) (dst : Nat) : List Insn :=
  let port := (reg >>> 16) % 65536
  let reg := reg &&& 0xffff
  if dev.id = 0 then
    mdio_prog_push prog (INSN Op.READ (IMM port) (IMM reg) (REG dst))
  else
    let prog := mdio_prog_push prog
      (INSN Op.WRITE (IMM dev.id) (IMM MVLS_CMD) (IMM (mvls_multi_cmd port reg false)))
    let prog := mvls_wait_cmd prog dev.id
    mdio_prog_push prog (INSN Op.READ (IMM dev.id) (IMM MVLS_DATA) (REG dst))

/-- `mvls_read(dev, prog, reg)`: a read into working register 0. -/
def mvls_read (dev : mvls_device) (prog : List Insn) (reg : Nat) : List Insn :=
  mvls_read_to dev prog reg 0

/-- `mvls_write(dev, prog, uint32_t reg, uint32_t val)`; `val` is an operand
already built by `IMM` or `REG`. -/
def mvls_write (dev : mvls_device) (prog : List Insn) (reg : Nat) (val : Arg) : List Insn :=
  let port := (reg >>> 16) % 65536
  let reg := reg &&& 0xffff
  if dev.id = 0 then
    mdio_prog_push prog (INSN Op.WRITE (IMM port) (IMM reg) val)
  else
    let prog := mdio_prog_push prog (INSN Op.WRITE (IMM dev.id) (IMM MVLS_DATA) val)
    let prog := mdio_prog_push prog
      (INSN Op.WRITE (IMM dev.id) (IMM MVLS_CMD) (IMM (mvls_multi_cmd port reg true)))
    mvls_wait_cmd prog dev.id

/-- `mvls_wait(dev, prog, reg)`. -/
def mvls_wait (dev : mvls_device) (prog : List Insn) (reg : Nat) : List Insn :=
  let retry := prog.length
  let prog := mvls_read_to dev prog reg 0
  let prog := mdio_prog_push prog (INSN Op.AND (REG 0) (IMM MVLS_CMD_BUSY) (REG 0))
  mdio_prog_push prog (INSN Op.JEQ (REG 0) (IMM MVLS_CMD_BUSY) (GOTO prog.length retry))

/-! ## The execution engine and the command line (declared outside `mvls.c`) -/

/-- Modelled from the spec: the external execution engine.  Given the submitted
program it yields the capture stream (32-bit values) and a transfer status. -/
abbrev Engine := List Insn → List Nat × Int

/-- Modelled from the spec: `mdio_xfer` of `mdio.h`, the single synchronous call
that submits the program and hands the capture stream, its length and the
transfer status to the decode callback, whose result it returns. -/
def mdio_xfer {ρ : Type} (engine : Engine) (prog : List Insn)
    (cb : List Nat → Int → Int → ρ) : ρ :=
  cb (engine prog).1 (engine prog).1.length (engine prog).2

/-- Modelled from the spec: `argv_pop` of `mdio.h`, which consumes the next
argument token, or yields nothing when no token is left. -/
def argv_pop (argv : List String) : Option String × List String :=
  match argv with
  | [] => (none, [])
  | a :: rest => (some a, rest)

/-- The C library's `isspace` in the "C" locale. -/
def isspace (c : Char) : Bool :=
  c.toNat = 32 || (9 ≤ c.toNat && c.toNat ≤ 13)

/-- Value of a character as a digit (`0-9`, `a-z`, `A-Z`), as `strtol` reads it. -/
def digit_value (c : Char) : Option Nat :=
  let n := c.toNat
  if 48 ≤ n ∧ n ≤ 57 then some (n - 48)
  else if 97 ≤ n ∧ n ≤ 122 then some (n - 87)
  else if 65 ≤ n ∧ n ≤ 90 then some (n - 55)
  else none

/-- The longest run of digits below `base` at the head of the text, accumulated
onto `acc`. -/
def strtol_digits (base : Nat) : List Char → Nat → Nat
  | [], acc => acc
  | c :: cs, acc =>
    match digit_value c with
    | some d => if d < base then strtol_digits base cs (acc * base + d) else acc
    | none => acc

/-- The C library's `strtol(s, NULL, 0)` with a 64-bit `long`: leading white
space is skipped, an optional sign is read, the base is 16 after `0x`/`0X`
followed by a hexadecimal digit, 8 after a leading `0` and 10 otherwise, the
longest run of digits is converted, and the result is clamped to the range of
`long`.  When no digit can be read the result is 0. -/
def strtol (s : String) : Int :=
  let cs := s.toList.dropWhile isspace
  let neg : Bool := match cs with
    | c :: _ => c = '-'
    | [] => false
  let cs := match cs with
    | c :: rest => if c = '-' ∨ c = '+' then rest else cs
    | [] => cs
  let hex : Bool := match cs with
    | z :: x :: h :: _ =>
      z = '0' && (x = 'x' || x = 'X') &&
        (match digit_value h with | some d => d < 16 | none => false)
    | _ => false
  let v : Nat :=
    if hex then strtol_digits 16 (cs.drop 2) 0
    else match cs with
      | c :: _ => if c = '0' then strtol_digits 8 cs 0 else strtol_digits 10 cs 0
      | [] => 0
  if neg then max (-(v : Int)) (-(2 ^ 63 : Int)) else min (v : Int) (2 ^ 63 - 1)

/-! ## Working-register arithmetic -/

/-- Modelled from the spec: the value of an operand, given the working
registers. -/
def Arg.eval (rf : Nat → Nat) : Arg → Nat
  | Arg.imm n => n
  | Arg.reg r => rf r
  | _ => 0

/-- Modelled from the spec: the effect on the working registers of an
instruction that combines two operands into a working register (`AND`, `OR`,
`ADD`); every other instruction is left to the engine. -/
def alu_step (rf : Nat → Nat) (i : Insn) : Nat → Nat :=
  match i.op, i.arg2 with
  | Op.AND, Arg.reg d => Function.update rf d (i.arg0.eval rf &&& i.arg1.eval rf)
  | Op.OR, Arg.reg d => Function.update rf d (i.arg0.eval rf ||| i.arg1.eval rf)
  | Op.ADD, Arg.reg d => Function.update rf d (i.arg0.eval rf + i.arg1.eval rf)
  | _, _ => rf

/-! ## Family identification -/

/-- `mvls_id_cb(data, len, err, _id)`: the state is the caller's `id`
variable, `none` while it is uninitialised. -/
def mvls_id_cb (data : List Nat) (len : Int) (err : Int) (id : Option Nat) : Int × Option Nat :=
  if len ≠ 1 then (1, id)
  else (err, some (data.getD 0 0))

/-- Outcome of `mvls_id_exec`: the value returned and the program that was
submitted. -/
structure IdExec where
  ret : Nat
  prog : List Insn
  deriving DecidableEq, Repr

/-- `mvls_id_exec(dev)`. -/
def mvls_id_exec (engine : Engine) (dev : mvls_device) : IdExec :=
  let prog : List Insn := []
  let prog := mvls_read dev prog (MVLS_REG 0x10 0x03)
  let prog := mdio_prog_push prog (INSN Op.EMIT (REG 0) Arg.none Arg.none)
  let r := mdio_xfer engine prog (fun data len err => mvls_id_cb data len err none)
  if r.1 ≠ 0 then ⟨0, prog⟩
  else ⟨r.2.getD 0, prog⟩

/-- `mvls_get_family(dev)`. -/
def mvls_get_family (engine : Engine) (dev : mvls_device) : mvls_famliy :=
  let id := (mvls_id_exec engine dev).ret
  match id >>> 4 with
  | 0x099 => mvls_famliy.FAM_OPAL
  | 0x352 => mvls_famliy.FAM_AGATE
  | 0x0a1 => mvls_famliy.FAM_PERIDOT
  | _ => mvls_famliy.FAM_UNKNOWN

/-! ## LAG and mask tables -/

/-- `mvls_print_portvec(uint16_t portvec)`: one glyph per port 0-10, `some i`
for the printed port number of a member and `none` for the dot. -/
def mvls_print_portvec (portvec : Nat) : List (Option Nat) :=
  (List.range 11).map fun i =>
    if (portvec % 65536) &&& (1 <<< i) ≠ 0 then some i else none

/-- What `mvls_lag_cb` prints under its two headings: the rows of the LAG
table and the rows of the mask table, each a row number and its glyphs. -/
structure LagTables where
  lag : List (Nat × List (Option Nat))
  mask : List (Nat × List (Option Nat))
  deriving DecidableEq, Repr

/-- `mvls_lag_cb(data, len, err, _null)`: the return value and what was
printed (`none` when the callback returns before printing anything). -/
def mvls_lag_cb (data : List Nat) (len : Int) (err : Int) : Int × Option LagTables :=
  if len ≠ 16 + 8 then (1, none)
  else
    let lag := (List.range 16).filterMap fun lag =>
      if data.getD lag 0 &&& 0x7ff = 0 then none
      else some (lag, mvls_print_portvec (data.getD lag 0))
    let data := data.drop 16
    let mask := (List.range 8).map fun mask =>
      (mask, mvls_print_portvec (data.getD mask 0))
    (err, some ⟨lag, mask⟩)

/-! ## Counters -/

/-- `struct mvls_counter_ctx`: the family and the snapshot
`uint32_t prev[11][6]`. -/
structure mvls_counter_ctx where
  fam : mvls_famliy
  prev : Fin 11 → Fin 6 → Nat

/-- One row printed by `mvls_counter_cb`: the port and the six values in the
order of the columns, which the heading names Bcasts Rx/Tx, Ucasts Rx/Tx and
Mcasts Rx/Tx. -/
structure CounterRow where
  port : Nat
  bcast_rx : Nat
  bcast_tx : Nat
  ucast_rx : Nat
  ucast_tx : Nat
  mcast_rx : Nat
  mcast_tx : Nat
  deriving DecidableEq, Repr

/-- The array `now` of `mvls_counter_cb` for port `i`: counter `n` is
`(data[2 * n] << 16) | data[2 * n + 1]` as a `uint32_t`, with `data` advanced
by `6 * 2` entries per port. -/
def counter_now (data : List Nat) (i : Fin 11) (n : Fin 6) : Nat :=
  ((data.getD (12 * i.val + 2 * n.val) 0 <<< 16) |||
    data.getD (12 * i.val + 2 * n.val + 1) 0) % 2 ^ 32

/-- The test `!memcmp(ctx->prev[i], now, sizeof(now))` over six `uint32_t`. -/
def counter_same (prev now : Fin 6 → Nat) : Bool :=
  prev 0 == now 0 && prev 1 == now 1 && prev 2 == now 2 &&
  prev 3 == now 3 && prev 4 == now 4 && prev 5 == now 5

/-- Unsigned 32-bit subtraction, as `%3u` prints `now[n] - ctx->prev[i][n]`. -/
def sub32 (a b : Nat) : Nat := (a + 2 ^ 32 - b % 2 ^ 32) % 2 ^ 32

/-- One pass of the loop over the ports in `mvls_counter_cb`. -/
def counter_port (data : List Nat)
    (st : (Fin 11 → Fin 6 → Nat) × List CounterRow) (i : Fin 11) :
    (Fin 11 → Fin 6 → Nat) × List CounterRow :=
  let prev := st.1
  let now := counter_now data i
  if counter_same (prev i) now then st
  else
    let row : CounterRow :=
      ⟨i.val, sub32 (now 1) (prev i 1), sub32 (now 4) (prev i 4),
        sub32 (now 0) (prev i 0), sub32 (now 3) (prev i 3),
        sub32 (now 2) (prev i 2), sub32 (now 5) (prev i 5)⟩
    (Function.update prev i now, st.2 ++ [row])

/-- Outcome of `mvls_counter_cb`: the return value, the context afterwards and
the rows printed under the heading. -/
structure CounterCb where
  ret : Int
  ctx : mvls_counter_ctx
  rows : List CounterRow

/-- `mvls_counter_cb(data, len, err, _ctx)`. -/
def mvls_counter_cb (data : List Nat) (len : Int) (err : Int) (ctx : mvls_counter_ctx) :
    CounterCb :=
  if len ≠ 11 * 6 * 2 then ⟨1, ctx, []⟩
  else
    let st := ([0, 1, 2, 3, 4, 5, 6, 7, 8, 9, 10] : List (Fin 11)).foldl
      (counter_port data) (ctx.prev, [])
    ⟨err, { ctx with prev := st.1 }, st.2⟩

/-! ## ATU flush -/

/-- `mvls_atu_cb(data, len, err, _null)`. -/
def mvls_atu_cb (_data : List Nat) (len : Int) (err : Int) : Int :=
  if len ≠ 0 then 1 else err

/-- Outcome of `mvls_atu_exec`: the return value, the value of the local
variable `op` and the program `prog` when the function returns, whether
`mdio_xfer` was called on that program, and the messages written to the error
stream (their text up to the first format directive). -/
structure AtuExec where
  ret : Int
  op : Nat
  prog : List Insn
  submitted : Bool
  diag : List String
  deriving DecidableEq, Repr

/-- The code of `mvls_atu_exec` from the label `exec:` to the end. -/
def mvls_atu_exec_exec (engine : Engine) (dev : mvls_device) (prog : List Insn) (op : Nat)
    (diag : List String) : AtuExec :=
  let prog := mvls_wait dev prog (MVLS_REG MVLS_G1 0x0b)
  let prog := mvls_read_to dev prog (MVLS_REG MVLS_G1 0x0b) 0
  let prog := mdio_prog_push prog (INSN Op.AND (REG 0) (IMM 0xfff) (REG 0))
  let prog := mdio_prog_push prog (INSN Op.OR (REG 0) (IMM (BIT 15 ||| (op <<< 12))) (REG 0))
  let prog := mvls_write dev prog (MVLS_REG MVLS_G1 0x0b) (REG 0)
  let prog := mvls_wait dev prog (MVLS_REG MVLS_G1 0x0b)
  let err := mdio_xfer engine prog mvls_atu_cb
  if err ≠ 0 then ⟨1, op, prog, true, diag ++ ["ERROR: ATU operation failed"]⟩
  else ⟨0, op, prog, true, diag⟩

/-- The code of `mvls_atu_exec` from the label `read_stat:` on; `op` is a
`uint8_t`. -/
def mvls_atu_exec_read_stat (engine : Engine) (dev : mvls_device) (prog : List Insn) (op : Nat)
    (argv : List String) : AtuExec :=
  match (argv_pop argv).1 with
  | none => mvls_atu_exec_exec engine dev prog ((op + 2) % 256) []
  | some arg =>
    if arg = "static" then mvls_atu_exec_exec engine dev prog ((op + 1) % 256) []
    else mvls_atu_exec_exec engine dev prog op ["ERROR: Invalid option"]

/-- `mvls_atu_exec(dev, argc, argv)`. -/
def mvls_atu_exec (engine : Engine) (dev : mvls_device) (argv : List String) : AtuExec :=
  let prog : List Insn := []
  let op : Nat := 0
  -- Drop "atu" token.
  let argv := (argv_pop argv).2
  match argv_pop argv with
  | (none, _) => ⟨1, op, prog, false, ["ERROR: Expected ATU command"]⟩
  | (some arg, argv) =>
    if arg = "flush" then
      match argv_pop argv with
      | (none, _) => mvls_atu_exec_exec engine dev prog ((op + 2) % 256) []
      | (some arg, argv) =>
        if arg = "all" then mvls_atu_exec_read_stat engine dev prog op argv
        else
          let fid := strtol arg
          if fid < 0 then ⟨1, op, prog, false, ["ERROR: Invalid FID"]⟩
          else
            -- Limit to specific FID
            let prog := mvls_read_to dev prog (MVLS_REG MVLS_G1 0x01) 0
            let prog := mdio_prog_push prog (INSN Op.AND (REG 0) (IMM 0xf0000) (REG 0))
            let prog := mdio_prog_push prog
              (INSN Op.OR (REG 0) (IMM (fid.toNat &&& 0xfff)) (REG 0))
            let prog := mvls_write dev prog (MVLS_REG MVLS_G1 0x01) (REG 0)
            let op := 4
            mvls_atu_exec_read_stat engine dev prog op argv
    else ⟨1, op, prog, false, ["ERROR: Unknown ATU command"]⟩

/-- The outcome `r` of `mvls_atu_exec` places the operation code `op`: a program
was submitted, the local variable `op` has that value, and the program ends
with the OR of `BIT(15) | (op << 12)` into working register 0, the write of
working register 0 to the ATU operation register (Global1, 0x0b) and the final
poll of that register. -/
def atu_places_op (dev : mvls_device) (r : AtuExec) (op : Nat) : Prop :=
  r.submitted = true ∧ r.op = op ∧
  ∃ pre, r.prog =
    mvls_wait dev
      (mvls_write dev
        (mdio_prog_push pre (INSN Op.OR (REG 0) (IMM (BIT 15 ||| (op <<< 12))) (REG 0)))
        (MVLS_REG MVLS_G1 0x0b) (REG 0))
      (MVLS_REG MVLS_G1 0x0b)

/-! ## The LAG program -/

/-- Outcome of `mvls_lag_exec`: the return value, the program `prog` when the
function returns, whether `mdio_xfer` was called on it and what the callback
printed. -/
structure LagExec where
  ret : Int
  prog : List Insn
  submitted : Bool
  out : Option LagTables
  deriving DecidableEq, Repr

/-- One pass of the first loop of `mvls_lag_exec` (LAG slot `i`). -/
def mvls_lag_exec_lag (dev : mvls_device) (prog : List Insn) (i : Nat) : List Insn :=
  let prog := mvls_write dev prog (MVLS_REG MVLS_G2 0x08) (IMM (i <<< 11))
  let prog := mvls_read dev prog (MVLS_REG MVLS_G2 0x08)
  mdio_prog_push prog (INSN Op.EMIT (REG 0) Arg.none Arg.none)

/-- One pass of the second loop of `mvls_lag_exec` (mask slot `i`). -/
def mvls_lag_exec_mask (dev : mvls_device) (prog : List Insn) (i : Nat) : List Insn :=
  let prog := mvls_read dev prog (MVLS_REG MVLS_G2 0x07)
  -- Keep the current value of the HashTrunk bit when selecting the mask to read out.
  let prog := mdio_prog_push prog (INSN Op.AND (REG 0) (IMM (1 <<< 11)) (REG 0))
  let prog := mdio_prog_push prog (INSN Op.OR (REG 0) (IMM (i <<< 12)) (REG 0))
  let prog := mvls_write dev prog (MVLS_REG MVLS_G2 0x07) (REG 0)
  let prog := mvls_read dev prog (MVLS_REG MVLS_G2 0x07)
  mdio_prog_push prog (INSN Op.EMIT (REG 0) Arg.none Arg.none)

/-- `mvls_lag_exec(dev, argc, argv)`. -/
def mvls_lag_exec (engine : Engine) (dev : mvls_device) (argv : List String) : LagExec :=
  let prog : List Insn := []
  -- Drop "lag" token.
  let argv := (argv_pop argv).2
  match (argv_pop argv).1 with
  | some _ => ⟨1, prog, false, none⟩
  | none =>
    let prog := (List.range 16).foldl (mvls_lag_exec_lag dev) prog
    let prog := (List.range 8).foldl (mvls_lag_exec_mask dev) prog
    let r := mdio_xfer engine prog mvls_lag_cb
    if r.1 ≠ 0 then ⟨1, prog, true, r.2⟩ else ⟨0, prog, true, r.2⟩

/-! ## The counter program -/

/-- `mvls_counter_read_one(dev, prog, uint8_t counter)`. -/
def mvls_counter_read_one (dev : mvls_device) (prog : List Insn) (counter : Nat) : List Insn :=
  let prog := mvls_write dev prog (MVLS_REG MVLS_G1 0x1d)
    (IMM ((1 <<< 15) ||| (4 <<< 12) ||| (counter % 256)))
  let prog := mvls_wait dev prog (MVLS_REG MVLS_G1 0x1d)
  let prog := mvls_read dev prog (MVLS_REG MVLS_G1 0x1e)
  let prog := mdio_prog_push prog (INSN Op.EMIT (REG 0) Arg.none Arg.none)
  let prog := mvls_read dev prog (MVLS_REG MVLS_G1 0x1f)
  mdio_prog_push prog (INSN Op.EMIT (REG 0) Arg.none Arg.none)

/-- The `switch (ctx.fam)` of `mvls_counter_exec`: the pair `(base, shift)`. -/
def counter_base_shift (fam : mvls_famliy) : Nat × Nat :=
  match fam with
  | mvls_famliy.FAM_AGATE => (1 <<< 5, 1 <<< 5)
  | mvls_famliy.FAM_PERIDOT => (1 <<< 5, 1 <<< 5)
  | mvls_famliy.FAM_AMETHYST => (1 <<< 5, 1 <<< 5)
  | _ => (0, 1)

/-- The offset `loop` of `mvls_counter_exec`: the program length recorded just
after the initialisation of working register 1. -/
def counter_loop_offset (dev : mvls_device) : Nat :=
  (mdio_prog_push (mvls_wait dev [] (MVLS_REG MVLS_G1 0x1d))
    (INSN Op.ADD (IMM 0) (IMM 0) (REG 1))).length

/-- The program built by `mvls_counter_exec` for family `fam` (the code from
the `switch` on the family to the closing branch). -/
def mvls_counter_exec_prog (fam : mvls_famliy) (dev : mvls_device) : List Insn :=
  let base := (counter_base_shift fam).1
  let shift := (counter_base_shift fam).2
  let prog : List Insn := []
  let prog := mvls_wait dev prog (MVLS_REG MVLS_G1 0x1d)
  let prog := mdio_prog_push prog
    (INSN Op.ADD (IMM ((1 <<< 15) ||| (5 <<< 12) ||| base)) (IMM 0) (REG 1))
  let loop := prog.length
  let prog := mvls_write dev prog (MVLS_REG MVLS_G1 0x1d) (REG 1)
  let prog := mvls_wait dev prog (MVLS_REG MVLS_G1 0x1d)
  let prog := mvls_counter_read_one dev prog 0x04
  let prog := mvls_counter_read_one dev prog 0x06
  let prog := mvls_counter_read_one dev prog 0x07
  let prog := mvls_counter_read_one dev prog 0x10
  let prog := mvls_counter_read_one dev prog 0x13
  let prog := mvls_counter_read_one dev prog 0x12
  let prog := mdio_prog_push prog (INSN Op.ADD (REG 1) (IMM shift) (REG 1))
  mdio_prog_push prog
    (INSN Op.JNE (REG 1) (IMM ((1 <<< 15) ||| (5 <<< 12) ||| (base + shift * 11)))
      (GOTO prog.length loop))

/-- Outcome of `mvls_counter_exec`: the return value (`none` while the polling
loop is still running when the fuel of the model is spent), the program, the
context and the rows printed by each poll. -/
structure CounterExec where
  ret : Option Int
  prog : List Insn
  ctx : mvls_counter_ctx
  polls : List (List CounterRow)

/-- The `while (!(err = mdio_xfer(...)))` loop of `mvls_counter_exec`; poll
number `k` is answered by the engine `polls k`, and `fuel` bounds the number
of polls the model follows.  The result is the final `err`, if reached. -/
def mvls_counter_exec_loop (polls : Nat → Engine) (prog : List Insn) (rep : Bool) :
    Nat → Nat → mvls_counter_ctx → List (List CounterRow) →
      Option Int × mvls_counter_ctx × List (List CounterRow)
  | 0, _, ctx, out => (none, ctx, out)
  | fuel + 1, k, ctx, out =>
    let r := mdio_xfer (polls k) prog (fun data len err => mvls_counter_cb data len err ctx)
    if r.ret ≠ 0 then (some r.ret, r.ctx, out ++ [r.rows])
    else if rep then mvls_counter_exec_loop polls prog rep fuel (k + 1) r.ctx (out ++ [r.rows])
    else (some r.ret, r.ctx, out ++ [r.rows])

/-- `mvls_counter_exec(dev, argc, argv)`; `struct mvls_counter_ctx ctx = {}`
starts with an all-zero snapshot. -/
def mvls_counter_exec (engine : Engine) (polls : Nat → Engine) (fuel : Nat)
    (dev : mvls_device) (argv : List String) : CounterExec :=
  let ctx : mvls_counter_ctx := ⟨mvls_famliy.FAM_UNKNOWN, fun _ _ => 0⟩
  -- Drop "counter" token.
  let argv := (argv_pop argv).2
  let arg := (argv_pop argv).1
  if arg.isSome ∧ arg ≠ some "repeat" then ⟨some 1, [], ctx, []⟩
  else
    let rep : Bool := arg.isSome
    let ctx := { ctx with fam := mvls_get_family engine dev }
    let prog := mvls_counter_exec_prog ctx.fam dev
    let r := mvls_counter_exec_loop polls prog rep fuel 0 ctx []
    match r.1 with
    | none => ⟨none, prog, r.2.1, r.2.2⟩
    | some err => if err ≠ 0 then ⟨some 1, prog, r.2.1, r.2.2⟩ else ⟨some 0, prog, r.2.1, r.2.2⟩

/-! ## Observers of a program -/

/-- Modelled from the spec: the working register an instruction writes, if
any (`READ`, `AND`, `OR` and `ADD` place their result in the register named by
the third operand; `WRITE`, `EMIT` and the branches write none). -/
def dest_reg (i : Insn) : Option Nat :=
  match i.op, i.arg2 with
  | Op.READ, Arg.reg d => some d
  | Op.AND, Arg.reg d => some d
  | Op.OR, Arg.reg d => some d
  | Op.ADD, Arg.reg d => some d
  | _, _ => none

/-- The offsets of the capture (`EMIT`) instructions of a program, counted
from `off`. -/
def emit_offsets : List Insn → Nat → List Nat
  | [], _ => []
  | i :: rest, off =>
    if i.op = Op.EMIT then off :: emit_offsets rest (off + 1) else emit_offsets rest (off + 1)

/-- The branches of a program with opcode `op`, counted from `off`: for each
one its own offset, the offset recorded in its operand and its target. -/
def branches (op : Op) : List Insn → Nat → List (Nat × Nat × Nat)
  | [], _ => []
  | i :: rest, off =>
    match i.arg2 with
    | Arg.goto src dst =>
      if i.op = op then (off, src, dst) :: branches op rest (off + 1)
      else branches op rest (off + 1)
    | _ => branches op rest (off + 1)

/-- The offsets of the instructions of a program that write working register
`r`, counted from `off`. -/
def reg_writers (r : Nat) : List Insn → Nat → List Nat
  | [], _ => []
  | i :: rest, off =>
    if dest_reg i = some r then off :: reg_writers r rest (off + 1)
    else reg_writers r rest (off + 1)

/-- Modelled from the spec: whether a conditional branch is taken, given the
working registers (`JEQ` when its two operands are equal, `JNE` when they
differ). -/
def branch_taken (rf : Nat → Nat) (i : Insn) : Bool :=
  match i.op with
  | Op.JEQ => i.arg0.eval rf == i.arg1.eval rf
  | Op.JNE => i.arg0.eval rf != i.arg1.eval rf
  | _ => false

/-- The part of an instruction that does not depend on the device identity in
indirect mode and that the observers above inspect: its opcode and its third
operand. -/
def skel (i : Insn) : Op × Arg := (i.op, i.arg2)

/-! ## Address parsing -/

/-- `EINVAL` of `errno.h` (Linux). -/
def EINVAL : Int := 22

/-- `ENOSYS` of `errno.h` (Linux). -/
def ENOSYS : Int := 38

/-- The C library's `strtok` with the single delimiter `delim`, on the text
still to be scanned: leading delimiters are skipped; when nothing is left there
is no token; otherwise the token is the longest run without a delimiter and
the scan resumes after the delimiter that ended it. -/
def strtok (delim : Char) (s : List Char) : Option (List Char × List Char) :=
  match s.dropWhile (fun c => c == delim) with
  | [] => none
  | c :: cs =>
    some ((c :: cs).takeWhile (fun c => c != delim),
      ((c :: cs).dropWhile (fun c => c != delim)).drop 1)

/-- The longest run of digits below `base` at the head of the text, accumulated
onto `acc`, together with the text that follows it. -/
def strtoul_scan (base : Nat) : List Char → Nat → Nat × List Char
  | [], acc => (acc, [])
  | c :: cs, acc =>
    match digit_value c with
    | some d => if d < base then strtoul_scan base cs (acc * base + d) else (acc, c :: cs)
    | none => (acc, c :: cs)

/-- The C library's `strtoul(s, &end, 0)` with a 64-bit `unsigned long`: the
value, and whether `*end` is the terminating NUL.  Leading white space is
skipped, an optional sign is read, the base is 16 after `0x`/`0X` followed by a
hexadecimal digit, 8 after a leading `0` and 10 otherwise; the value saturates
at `ULONG_MAX` and is negated modulo 2^64 after a minus sign.  When no digit
can be read the value is 0 and `end` is the start of the text. -/
def strtoul (s : List Char) : Nat × Bool :=
  let cs := s.dropWhile isspace
  let neg : Bool := match cs with
    | c :: _ => c = '-'
    | [] => false
  let cs := match cs with
    | c :: rest => if c = '-' ∨ c = '+' then rest else cs
    | [] => cs
  let hex : Bool := match cs with
    | z :: x :: h :: _ =>
      z = '0' && (x = 'x' || x = 'X') &&
        (match digit_value h with | some d => d < 16 | none => false)
    | _ => false
  let scan : Nat × List Char :=
    if hex then strtoul_scan 16 (cs.drop 2) 0
    else match cs with
      | c :: _ => if c = '0' then strtoul_scan 8 cs 0 else strtoul_scan 10 cs 0
      | [] => (0, [])
  let converted : Bool := hex || scan.2.length < cs.length
  if converted then
    let v := if scan.1 > 2 ^ 64 - 1 then 2 ^ 64 - 1
      else if neg then (2 ^ 64 - scan.1) % 2 ^ 64 else scan.1
    (v, scan.2.isEmpty)
  else (0, s.isEmpty)

/-- Outcome of `mvls_parse_reg`: the return value, the value stored through
`regs` (if any) and the arguments left. -/
structure ParseReg where
  ret : Int
  regs : Option Nat
  argv : List String
  deriving DecidableEq, Repr

/-- `mvls_parse_reg(dev, argcp, argvp, regs, rege)`; `rege` tells whether the
range-end pointer is non-null. -/
def mvls_parse_reg (rege : Bool) (argv : List String) : ParseReg :=
  if rege then ⟨ENOSYS, none, argv⟩
  else
    match argv_pop argv with
    | (none, argv) => ⟨EINVAL, none, argv⟩
    | (some str, argv) =>
      match strtok ':' str.toList with
      | none => ⟨EINVAL, none, argv⟩
      | some (tok, state) =>
        let port : Except Int Nat :=
          if tok = "global1".toList ∨ tok = "g1".toList then Except.ok MVLS_G1
          else if tok = "global2".toList ∨ tok = "g2".toList then Except.ok MVLS_G2
          else
            let r := strtoul tok
            if ¬ r.2 then Except.error EINVAL
            else if r.1 > 31 then Except.error EINVAL
            else Except.ok (r.1 % 65536)
        match port with
        | Except.error e => ⟨e, none, argv⟩
        | Except.ok port =>
          match strtok ':' state with
          | none => ⟨EINVAL, none, argv⟩
          | some (tok, _) =>
            let r := strtoul tok
            if ¬ r.2 then ⟨EINVAL, none, argv⟩
            else if r.1 > 31 then ⟨EINVAL, none, argv⟩
            else ⟨0, some (((port <<< 16) ||| r.1) % 2 ^ 32), argv⟩

/-- The fields of a text split at every `:` (empty fields included). -/
def split_colon : List Char → List (List Char)
  | [] => [[]]
  | c :: cs =>
    if c = ':' then [] :: split_colon cs
    else match split_colon cs with
      | f :: fs => (c :: f) :: fs
      | [] => [[c]]

/-- The two checks `mvls_parse_reg` makes on a token after `strtoul`: `*end`
must be the terminating NUL and the value must not exceed 31. -/
def checked_number (t : List Char) : Option Nat :=
  if (strtoul t).2 = true ∧ (strtoul t).1 ≤ 31 then some (strtoul t).1 else none

/-- The port `mvls_parse_reg` derives from its first token. -/
def checked_port (t : List Char) : Option Nat :=
  if t = "global1".toList ∨ t = "g1".toList then some MVLS_G1
  else if t = "global2".toList ∨ t = "g2".toList then some MVLS_G2
  else checked_number t

/-- The value of a digit of a numeral: `0`-`9`, and `a`-`f` or `A`-`F` for ten
to fifteen. -/
def spec_digit (c : Char) : Option Nat :=
  if '0'.toNat ≤ c.toNat ∧ c.toNat ≤ '9'.toNat then some (c.toNat - '0'.toNat)
  else if 'a'.toNat ≤ c.toNat ∧ c.toNat ≤ 'f'.toNat then some (c.toNat - 'a'.toNat + 10)
  else if 'A'.toNat ≤ c.toNat ∧ c.toNat ≤ 'F'.toNat then some (c.toNat - 'A'.toNat + 10)
  else none

/-- Reading one more digit of a numeral in base `base`: nothing is read once a
character is not a digit of that base. -/
def spec_digit_step (base : Nat) (acc : Option Nat) (c : Char) : Option Nat :=
  match acc, spec_digit c with
  | some a, some d => if d < base then some (a * base + d) else none
  | _, _ => none

/-- The value of a text made only of digits of base `base`. -/
def spec_digits (base : Nat) (cs : List Char) : Option Nat :=
  cs.foldl (spec_digit_step base) (some 0)

/-- The value of an unsigned numeral, following the spec's word "numeric" with
the usual prefixes: hexadecimal digits after `0x` or `0X`, octal digits after
a leading `0`, decimal digits otherwise; no sign, no white space, at least one
digit. -/
def spec_numeral (t : List Char) : Option Nat :=
  match t with
  | [] => none
  | c :: rest =>
    if c = '0' then
      match rest with
      | x :: h :: more =>
        if x = 'x' ∨ x = 'X' then spec_digits 16 (h :: more) else spec_digits 8 rest
      | _ => spec_digits 8 rest
    else spec_digits 10 (c :: rest)

/-- A number in 0-31, following the spec's words: an unsigned numeral whose
value is at most 31. -/
def spec_number (t : List Char) : Option Nat :=
  match spec_numeral t with
  | some v => if v ≤ 31 then some v else none
  | none => none

/-- The port part of an address, following the spec's words: `g1` or `global1`
is 0x1b, `g2` or `global2` is 0x1c, otherwise a number in 0-31. -/
def spec_port (t : List Char) : Option Nat :=
  if t = "g1".toList ∨ t = "global1".toList then some 0x1b
  else if t = "g2".toList ∨ t = "global2".toList then some 0x1c
  else spec_number t

/-- The non-empty fields of an argument split at `:`. -/
def spec_fields (arg : String) : List (List Char) :=
  (split_colon arg.toList).filter (fun f => !f.isEmpty)

/-- The address syntax, following the spec's words: the argument is split at
`:`, empty fields are dropped, the first field is the port P and the second
the register R (further fields are ignored), and the address is
`(P << 16) | R`. -/
def spec_parse_reg (arg : String) : Option Nat :=
  match spec_fields arg with
  | p :: r :: _ =>
    match spec_port p, spec_number r with
    | some port, some reg => some ((port <<< 16) ||| reg)
    | _, _ => none
  | _ => none

/-- Whether a field begins with neither white space nor a sign. -/
def unsigned_field (f : List Char) : Bool :=
  match f with
  | [] => true
  | c :: _ => !isspace c && c != '+' && c != '-'

/-- What `mvls_parse_reg` computes from the non-empty fields of its argument:
the checked port from the first and the checked number from the second. -/
def checked_parse_reg (arg : String) : Option Nat :=
  match spec_fields arg with
  | p :: r :: _ =>
    match checked_port p, checked_number r with
    | some port, some reg => some ((port <<< 16) ||| reg)
    | _, _ => none
  | _ => none

/-! ## Theorems -/

/-! ### Shape of the program fragments -/

theorem mvls_wait_cmd_append (prog : List Insn) (id : Nat) :
    mvls_wait_cmd prog id = prog ++
      [INSN Op.READ (IMM (id % 256)) (IMM MVLS_CMD) (REG 0),
       INSN Op.AND (REG 0) (IMM MVLS_CMD_BUSY) (REG 0),
       INSN Op.JEQ (REG 0) (IMM MVLS_CMD_BUSY) (GOTO (prog.length + 2) prog.length)] := by
  simp [mvls_wait_cmd, mdio_prog_push]

theorem mvls_read_to_direct (dev : mvls_device) (prog : List Insn) (reg dst : Nat)
    (h : dev.id = 0) :
    mvls_read_to dev prog reg dst = prog ++
      [INSN Op.READ (IMM ((reg >>> 16) % 65536)) (IMM (reg &&& 0xffff)) (REG dst)] := by
  simp [mvls_read_to, mdio_prog_push, h]

theorem mvls_read_to_indirect (dev : mvls_device) (prog : List Insn) (reg dst : Nat)
    (h : dev.id ≠ 0) :
    mvls_read_to dev prog reg dst = prog ++
      [INSN Op.WRITE (IMM dev.id) (IMM MVLS_CMD)
         (IMM (mvls_multi_cmd ((reg >>> 16) % 65536) (reg &&& 0xffff) false)),
       INSN Op.READ (IMM (dev.id % 256)) (IMM MVLS_CMD) (REG 0),
       INSN Op.AND (REG 0) (IMM MVLS_CMD_BUSY) (REG 0),
       INSN Op.JEQ (REG 0) (IMM MVLS_CMD_BUSY) (GOTO (prog.length + 3) (prog.length + 1)),
       INSN Op.READ (IMM dev.id) (IMM MVLS_DATA) (REG dst)] := by
  simp [mvls_read_to, mvls_wait_cmd_append, mdio_prog_push, h]

theorem mvls_write_direct (dev : mvls_device) (prog : List Insn) (reg : Nat) (val : Arg)
    (h : dev.id = 0) :
    mvls_write dev prog reg val = prog ++
      [INSN Op.WRITE (IMM ((reg >>> 16) % 65536)) (IMM (reg &&& 0xffff)) val] := by
  simp [mvls_write, mdio_prog_push, h]

theorem mvls_write_indirect (dev : mvls_device) (prog : List Insn) (reg : Nat) (val : Arg)
    (h : dev.id ≠ 0) :
    mvls_write dev prog reg val = prog ++
      [INSN Op.WRITE (IMM dev.id) (IMM MVLS_DATA) val,
       INSN Op.WRITE (IMM dev.id) (IMM MVLS_CMD)
         (IMM (mvls_multi_cmd ((reg >>> 16) % 65536) (reg &&& 0xffff) true)),
       INSN Op.READ (IMM (dev.id % 256)) (IMM MVLS_CMD) (REG 0),
       INSN Op.AND (REG 0) (IMM MVLS_CMD_BUSY) (REG 0),
       INSN Op.JEQ (REG 0) (IMM MVLS_CMD_BUSY) (GOTO (prog.length + 4) (prog.length + 2))] := by
  simp [mvls_write, mvls_wait_cmd_append, mdio_prog_push, h]

/-- Every builder only appends: the program it is given is a prefix of its result. -/
theorem mvls_read_to_extends (dev : mvls_device) (prog : List Insn) (reg dst : Nat) :
    prog <+: mvls_read_to dev prog reg dst := by
  by_cases h : dev.id = 0
  · rw [mvls_read_to_direct dev prog reg dst h]; exact List.prefix_append _ _
  · rw [mvls_read_to_indirect dev prog reg dst h]; exact List.prefix_append _ _

theorem mvls_write_extends (dev : mvls_device) (prog : List Insn) (reg : Nat) (val : Arg) :
    prog <+: mvls_write dev prog reg val := by
  by_cases h : dev.id = 0
  · rw [mvls_write_direct dev prog reg val h]; exact List.prefix_append _ _
  · rw [mvls_write_indirect dev prog reg val h]; exact List.prefix_append _ _

theorem mdio_prog_push_extends (prog : List Insn) (insn : Insn) :
    prog <+: mdio_prog_push prog insn :=
  List.prefix_append _ _

theorem mvls_wait_extends (dev : mvls_device) (prog : List Insn) (reg : Nat) :
    prog <+: mvls_wait dev prog reg := by
  unfold mvls_wait
  exact ((mvls_read_to_extends dev prog reg 0).trans (mdio_prog_push_extends _ _)).trans
    (mdio_prog_push_extends _ _)

/-! ### The indirect command word -/

theorem multi_cmd_fields_fin : ∀ (port reg : Fin 32) (write : Bool),
    (mvls_multi_cmd port.val reg.val write).testBit 15 = true ∧
    (mvls_multi_cmd port.val reg.val write).testBit 14 = false ∧
    (mvls_multi_cmd port.val reg.val write).testBit 13 = false ∧
    (mvls_multi_cmd port.val reg.val write).testBit 12 = true ∧
    (mvls_multi_cmd port.val reg.val write >>> 10) &&& 3 = (if write then 1 else 2) ∧
    (mvls_multi_cmd port.val reg.val write >>> 5) &&& 31 = port.val ∧
    mvls_multi_cmd port.val reg.val write &&& 31 = reg.val ∧
    mvls_multi_cmd port.val reg.val write < 65536 := by
  decide

/-- C4: for port <= 31 and register <= 31 the command word of `mvls_multi_cmd`
fits 16 bits, has bit 15 and bit 12 set and bits 14 and 13 clear, carries 1
(write) or 2 (read) in bits 11-10, the port in bits 9-5 and the register in
bits 4-0; hence two such words are equal only for the same port, register and
direction. -/
theorem mvls_multi_cmd_layout (port reg : Nat) (hp : port ≤ 31) (hr : reg ≤ 31)
    (write : Bool) :
    (mvls_multi_cmd port reg write < 65536 ∧
     (mvls_multi_cmd port reg write).testBit 15 = true ∧
     (mvls_multi_cmd port reg write).testBit 14 = false ∧
     (mvls_multi_cmd port reg write).testBit 13 = false ∧
     (mvls_multi_cmd port reg write).testBit 12 = true ∧
     (mvls_multi_cmd port reg write >>> 10) &&& 3 = (if write then 1 else 2) ∧
     (mvls_multi_cmd port reg write >>> 5) &&& 31 = port ∧
     mvls_multi_cmd port reg write &&& 31 = reg) ∧
    ∀ (port2 reg2 : Nat) (write2 : Bool), port2 ≤ 31 → reg2 ≤ 31 →
      mvls_multi_cmd port2 reg2 write2 = mvls_multi_cmd port reg write →
      port2 = port ∧ reg2 = reg ∧ write2 = write := by
  have key := multi_cmd_fields_fin ⟨port, by omega⟩ ⟨reg, by omega⟩ write
  obtain ⟨k15, k14, k13, k12, kop, kport, kreg, klt⟩ := key
  refine ⟨⟨klt, k15, k14, k13, k12, kop, kport, kreg⟩, ?_⟩
  intro port2 reg2 write2 hp2 hr2 heq
  obtain ⟨-, -, -, -, kop2, kport2, kreg2, -⟩ :=
    multi_cmd_fields_fin ⟨port2, by omega⟩ ⟨reg2, by omega⟩ write2
  simp only at kop kport kreg kop2 kport2 kreg2
  rw [heq] at kop2 kport2 kreg2
  refine ⟨kport2.symm.trans kport, kreg2.symm.trans kreg, ?_⟩
  have hop := kop2.symm.trans kop
  cases write <;> cases write2 <;> simp_all

theorem mvls_multi_cmd_layout_witness :
    mvls_multi_cmd 0x1b 0x0b false = 0x9b6b ∧
    (mvls_multi_cmd 0x1b 0x0b false >>> 5) &&& 31 = 0x1b ∧
    mvls_multi_cmd 0x1b 0x0b false &&& 31 = 0x0b :=
  ⟨by decide,
   (mvls_multi_cmd_layout 0x1b 0x0b (by decide) (by decide) false).1.2.2.2.2.2.2.1,
   (mvls_multi_cmd_layout 0x1b 0x0b (by decide) (by decide) false).1.2.2.2.2.2.2.2⟩

/-! ### Direct and indirect addressing -/

/-- C5: in direct mode (identity 0) `mvls_read_to` and `mvls_write` append
exactly one instruction, a READ (resp. WRITE) of the port and register unpacked
from the logical address; in indirect mode `mvls_read_to` appends the WRITE of
the read command word to the command register, the three-instruction command
poll and the READ of the data register into the destination, and `mvls_write`
appends the WRITE of the value to the data register, the WRITE of the write
command word to the command register and the three-instruction command poll. -/
theorem mvls_addressing_sequences (dev : mvls_device) (prog : List Insn) (reg dst : Nat)
    (val : Arg) :
    (dev.id = 0 →
      mvls_read_to dev prog reg dst = prog ++
        [INSN Op.READ (IMM ((reg >>> 16) % 65536)) (IMM (reg &&& 0xffff)) (REG dst)] ∧
      mvls_write dev prog reg val = prog ++
        [INSN Op.WRITE (IMM ((reg >>> 16) % 65536)) (IMM (reg &&& 0xffff)) val]) ∧
    (dev.id ≠ 0 →
      mvls_read_to dev prog reg dst = prog ++
        [INSN Op.WRITE (IMM dev.id) (IMM MVLS_CMD)
           (IMM (mvls_multi_cmd ((reg >>> 16) % 65536) (reg &&& 0xffff) false)),
         INSN Op.READ (IMM (dev.id % 256)) (IMM MVLS_CMD) (REG 0),
         INSN Op.AND (REG 0) (IMM MVLS_CMD_BUSY) (REG 0),
         INSN Op.JEQ (REG 0) (IMM MVLS_CMD_BUSY) (GOTO (prog.length + 3) (prog.length + 1)),
         INSN Op.READ (IMM dev.id) (IMM MVLS_DATA) (REG dst)] ∧
      mvls_write dev prog reg val = prog ++
        [INSN Op.WRITE (IMM dev.id) (IMM MVLS_DATA) val,
         INSN Op.WRITE (IMM dev.id) (IMM MVLS_CMD)
           (IMM (mvls_multi_cmd ((reg >>> 16) % 65536) (reg &&& 0xffff) true)),
         INSN Op.READ (IMM (dev.id % 256)) (IMM MVLS_CMD) (REG 0),
         INSN Op.AND (REG 0) (IMM MVLS_CMD_BUSY) (REG 0),
         INSN Op.JEQ (REG 0) (IMM MVLS_CMD_BUSY)
           (GOTO (prog.length + 4) (prog.length + 2))]) :=
  ⟨fun h => ⟨mvls_read_to_direct dev prog reg dst h, mvls_write_direct dev prog reg val h⟩,
   fun h => ⟨mvls_read_to_indirect dev prog reg dst h, mvls_write_indirect dev prog reg val h⟩⟩

theorem mvls_addressing_sequences_witness :
    mvls_read_to ⟨0⟩ [] (MVLS_REG MVLS_G1 0x0b) 0 =
      [INSN Op.READ (IMM 0x1b) (IMM 0x0b) (REG 0)] ∧
    mvls_write ⟨3⟩ [] (MVLS_REG MVLS_G1 0x0b) (REG 0) =
      [INSN Op.WRITE (IMM 3) (IMM 1) (REG 0),
       INSN Op.WRITE (IMM 3) (IMM 0) (IMM 0x976b),
       INSN Op.READ (IMM 3) (IMM 0) (REG 0),
       INSN Op.AND (REG 0) (IMM 0x8000) (REG 0),
       INSN Op.JEQ (REG 0) (IMM 0x8000) (GOTO 4 2)] :=
  ⟨((mvls_addressing_sequences ⟨0⟩ [] (MVLS_REG MVLS_G1 0x0b) 0 (REG 0)).1 rfl).1,
   ((mvls_addressing_sequences ⟨3⟩ [] (MVLS_REG MVLS_G1 0x0b) 0 (REG 0)).2 (by decide)).2⟩

/-! ### Family identification -/

theorem id_exec_prog_eq (engine : Engine) (dev : mvls_device) :
    (mvls_id_exec engine dev).prog =
      mdio_prog_push (mvls_read dev [] (MVLS_REG 0x10 0x03))
        (INSN Op.EMIT (REG 0) Arg.none Arg.none) := by
  unfold mvls_id_exec
  simp only
  split <;> rfl

theorem id_exec_ret_eq (engine : Engine) (dev : mvls_device) :
    (mvls_id_exec engine dev).ret =
      if (engine (mvls_id_exec engine dev).prog).1.length = 1 ∧
          (engine (mvls_id_exec engine dev).prog).2 = 0
      then (engine (mvls_id_exec engine dev).prog).1.getD 0 0 else 0 := by
  rw [id_exec_prog_eq]
  unfold mvls_id_exec mdio_xfer mvls_id_cb
  simp only
  generalize engine (mdio_prog_push (mvls_read dev [] (MVLS_REG 0x10 0x03))
    (INSN Op.EMIT (REG 0) Arg.none Arg.none)) = r
  by_cases hl : r.1.length = 1
  · by_cases he : r.2 = 0
    · simp [hl, he]
    · simp [hl, he]
  · have hl2 : ¬ ((r.1.length : Int) = 1) := by exact_mod_cast hl
    simp [hl, hl2]

theorem mvls_get_family_of_ret (engine : Engine) (dev : mvls_device) :
    mvls_get_family engine dev =
      if (mvls_id_exec engine dev).ret >>> 4 = 0x099 then mvls_famliy.FAM_OPAL
      else if (mvls_id_exec engine dev).ret >>> 4 = 0x352 then mvls_famliy.FAM_AGATE
      else if (mvls_id_exec engine dev).ret >>> 4 = 0x0a1 then mvls_famliy.FAM_PERIDOT
      else mvls_famliy.FAM_UNKNOWN := by
  unfold mvls_get_family
  simp only
  split <;> simp_all

/-- C6: when the identity transfer delivers the single value `id` with status
0, `mvls_id_exec` returns `id` and `mvls_get_family` returns Opal if
`id >> 4 = 0x099`, Agate if `id >> 4 = 0x352`, Peridot if `id >> 4 = 0x0a1` and
Unknown otherwise; when the transfer status is nonzero `mvls_id_exec` returns 0
and the family is Unknown; Spinnaker and Amethyst are never returned. -/
theorem mvls_get_family_table (engine : Engine) (dev : mvls_device) :
    (∀ id : Nat, engine (mvls_id_exec engine dev).prog = ([id], 0) →
      (mvls_id_exec engine dev).ret = id ∧
      (id >>> 4 = 0x099 → mvls_get_family engine dev = mvls_famliy.FAM_OPAL) ∧
      (id >>> 4 = 0x352 → mvls_get_family engine dev = mvls_famliy.FAM_AGATE) ∧
      (id >>> 4 = 0x0a1 → mvls_get_family engine dev = mvls_famliy.FAM_PERIDOT) ∧
      (id >>> 4 ≠ 0x099 → id >>> 4 ≠ 0x352 → id >>> 4 ≠ 0x0a1 →
        mvls_get_family engine dev = mvls_famliy.FAM_UNKNOWN)) ∧
    ((engine (mvls_id_exec engine dev).prog).2 ≠ 0 →
      (mvls_id_exec engine dev).ret = 0 ∧
      mvls_get_family engine dev = mvls_famliy.FAM_UNKNOWN) ∧
    mvls_get_family engine dev ≠ mvls_famliy.FAM_SPINNAKER ∧
    mvls_get_family engine dev ≠ mvls_famliy.FAM_AMETHYST := by
  refine ⟨?_, ?_, ?_, ?_⟩
  · intro id h
    have hret : (mvls_id_exec engine dev).ret = id := by
      rw [id_exec_ret_eq, h]; simp
    refine ⟨hret, ?_, ?_, ?_, ?_⟩
    · intro h1; rw [mvls_get_family_of_ret, hret, if_pos h1]
    · intro h1; rw [mvls_get_family_of_ret, hret, h1]; decide
    · intro h1; rw [mvls_get_family_of_ret, hret, h1]; decide
    · intro h1 h2 h3
      rw [mvls_get_family_of_ret, hret, if_neg h1, if_neg h2, if_neg h3]
  · intro h
    have hret : (mvls_id_exec engine dev).ret = 0 := by
      rw [id_exec_ret_eq]; simp [h]
    exact ⟨hret, by rw [mvls_get_family_of_ret, hret]; decide⟩
  · rw [mvls_get_family_of_ret]; split_ifs <;> decide
  · rw [mvls_get_family_of_ret]; split_ifs <;> decide

theorem mvls_get_family_table_witness :
    mvls_get_family (fun _ => ([0x0990], 0)) ⟨0⟩ = mvls_famliy.FAM_OPAL ∧
    mvls_get_family (fun _ => ([0x0990], 5)) ⟨0⟩ = mvls_famliy.FAM_UNKNOWN :=
  ⟨(((mvls_get_family_table (fun _ => ([0x0990], 0)) ⟨0⟩).1 0x0990 rfl).2.1) (by decide),
   ((mvls_get_family_table (fun _ => ([0x0990], 5)) ⟨0⟩).2.1 (by decide)).2⟩

/-- C7 as stated fails: on a direct device the identity program is not a read
of register 0x03 of Global1 (0x1b) or Global2 (0x1c) followed by a capture. -/
theorem mvls_id_exec_not_global :
    ¬ ∃ g, (g = MVLS_G1 ∨ g = MVLS_G2) ∧
      (mvls_id_exec (fun _ => ([0x0990], 0)) ⟨0⟩).prog =
        mdio_prog_push (mvls_read ⟨0⟩ [] (MVLS_REG g 0x03))
          (INSN Op.EMIT (REG 0) Arg.none Arg.none) := by
  rintro ⟨g, hg | hg, h⟩ <;> subst hg <;> revert h <;> decide

/-- C7 amended: the identity program built by `mvls_id_exec` reads the logical
address with port value 0x10 in the high 16 bits and 0x03 in the low 16 bits
(neither reserved global port value) into working register 0 and then captures
it; in direct mode the program is exactly that one READ followed by one
capture. -/
theorem mvls_id_exec_program (engine : Engine) (dev : mvls_device) :
    (mvls_id_exec engine dev).prog =
      mdio_prog_push (mvls_read_to dev [] (MVLS_REG 0x10 0x03) 0)
        (INSN Op.EMIT (REG 0) Arg.none Arg.none) ∧
    MVLS_REG 0x10 0x03 >>> 16 = 0x10 ∧ MVLS_REG 0x10 0x03 &&& 0xffff = 0x03 ∧
    0x10 ≠ MVLS_G1 ∧ 0x10 ≠ MVLS_G2 ∧
    (mvls_id_exec engine ⟨0⟩).prog =
      [INSN Op.READ (IMM 0x10) (IMM 0x03) (REG 0),
       INSN Op.EMIT (REG 0) Arg.none Arg.none] := by
  refine ⟨id_exec_prog_eq engine dev, by decide, by decide, by decide, by decide, ?_⟩
  rw [id_exec_prog_eq]; rfl

/-! ### Decode callbacks -/

/-- C10: each decode callback returns 0 exactly when the capture stream has
the expected length (132 for `mvls_counter_cb`, 0 for `mvls_atu_cb`, 24 for
`mvls_lag_cb`) and the transfer status is 0; on a length mismatch it returns
nonzero whatever the status, and `mvls_counter_cb` leaves the context with its
snapshot unchanged and prints no row. -/
theorem decode_callbacks_length (data : List Nat) (len err : Int) (ctx : mvls_counter_ctx) :
    ((mvls_counter_cb data len err ctx).ret = 0 ↔ len = 132 ∧ err = 0) ∧
    (mvls_atu_cb data len err = 0 ↔ len = 0 ∧ err = 0) ∧
    ((mvls_lag_cb data len err).1 = 0 ↔ len = 24 ∧ err = 0) ∧
    (len ≠ 132 → (mvls_counter_cb data len err ctx).ret ≠ 0 ∧
      (mvls_counter_cb data len err ctx).ctx = ctx ∧
      (mvls_counter_cb data len err ctx).ctx.prev = ctx.prev ∧
      (mvls_counter_cb data len err ctx).rows = []) ∧
    (len ≠ 0 → mvls_atu_cb data len err ≠ 0) ∧
    (len ≠ 24 → (mvls_lag_cb data len err).1 ≠ 0 ∧ (mvls_lag_cb data len err).2 = none) := by
  have hc : ∀ h : len ≠ 11 * 6 * 2, mvls_counter_cb data len err ctx = ⟨1, ctx, []⟩ := by
    intro h; unfold mvls_counter_cb; rw [if_pos h]
  have hc2 : ∀ h : ¬ (len ≠ 11 * 6 * 2), (mvls_counter_cb data len err ctx).ret = err := by
    intro h; unfold mvls_counter_cb; rw [if_neg h]
  have hl : ∀ h : len ≠ 16 + 8, mvls_lag_cb data len err = (1, none) := by
    intro h; unfold mvls_lag_cb; rw [if_pos h]
  have hl2 : ∀ h : ¬ (len ≠ 16 + 8), (mvls_lag_cb data len err).1 = err := by
    intro h; unfold mvls_lag_cb; rw [if_neg h]
  have ha : ∀ h : len ≠ 0, mvls_atu_cb data len err = 1 := by
    intro h; unfold mvls_atu_cb; rw [if_pos h]
  have ha2 : ∀ h : ¬ (len ≠ 0), mvls_atu_cb data len err = err := by
    intro h; unfold mvls_atu_cb; rw [if_neg h]
  refine ⟨?_, ?_, ?_, ?_, ?_, ?_⟩
  · by_cases h : len ≠ 11 * 6 * 2
    · rw [hc h]
      constructor
      · intro h1; exact absurd h1 (show (1 : Int) ≠ 0 by decide)
      · intro h1; omega
    · rw [hc2 h]
      constructor
      · intro h1; exact ⟨by omega, h1⟩
      · intro h1; exact h1.2
  · by_cases h : len ≠ 0
    · rw [ha h]
      constructor
      · intro h1; exact absurd h1 (by decide)
      · intro h1; omega
    · rw [ha2 h]
      constructor
      · intro h1; exact ⟨by omega, h1⟩
      · intro h1; exact h1.2
  · by_cases h : len ≠ 16 + 8
    · rw [hl h]
      constructor
      · intro h1; exact absurd h1 (by decide)
      · intro h1; omega
    · rw [hl2 h]
      constructor
      · intro h1; exact ⟨by omega, h1⟩
      · intro h1; exact h1.2
  · intro h
    have h2 : len ≠ 11 * 6 * 2 := by omega
    rw [hc h2]
    exact ⟨show (1 : Int) ≠ 0 by decide, rfl, rfl, rfl⟩
  · intro h
    rw [ha h]; decide
  · intro h
    have h2 : len ≠ 16 + 8 := by omega
    rw [hl h2]
    exact ⟨by decide, rfl⟩

theorem decode_callbacks_length_witness :
    (mvls_counter_cb [1, 2, 3] 3 0 ⟨mvls_famliy.FAM_OPAL, fun _ _ => 7⟩).ret ≠ 0 ∧
    (mvls_counter_cb [1, 2, 3] 3 0 ⟨mvls_famliy.FAM_OPAL, fun _ _ => 7⟩).ctx.prev =
      (fun _ _ => 7) ∧
    mvls_atu_cb [9] 1 0 ≠ 0 ∧
    (mvls_lag_cb [] 0 0).1 ≠ 0 :=
  ⟨((decode_callbacks_length [1, 2, 3] 3 0 ⟨mvls_famliy.FAM_OPAL, fun _ _ => 7⟩).2.2.2.1
      (by decide)).1,
   ((decode_callbacks_length [1, 2, 3] 3 0 ⟨mvls_famliy.FAM_OPAL, fun _ _ => 7⟩).2.2.2.1
      (by decide)).2.2.1,
   (decode_callbacks_length [9] 1 0 ⟨mvls_famliy.FAM_OPAL, fun _ _ => 7⟩).2.2.2.2.1 (by decide),
   ((decode_callbacks_length [] 0 0 ⟨mvls_famliy.FAM_OPAL, fun _ _ => 7⟩).2.2.2.2.2
      (by decide)).1⟩

/-! ### ATU flush -/

theorem atu_exec_exec_fields (engine : Engine) (dev : mvls_device) (prog : List Insn)
    (op : Nat) (diag : List String) :
    (mvls_atu_exec_exec engine dev prog op diag).op = op ∧
    (mvls_atu_exec_exec engine dev prog op diag).submitted = true ∧
    (mvls_atu_exec_exec engine dev prog op diag).prog =
      mvls_wait dev
        (mvls_write dev
          (mdio_prog_push
            (mdio_prog_push
              (mvls_read_to dev (mvls_wait dev prog (MVLS_REG MVLS_G1 0x0b))
                (MVLS_REG MVLS_G1 0x0b) 0)
              (INSN Op.AND (REG 0) (IMM 0xfff) (REG 0)))
            (INSN Op.OR (REG 0) (IMM (BIT 15 ||| (op <<< 12))) (REG 0)))
          (MVLS_REG MVLS_G1 0x0b) (REG 0))
        (MVLS_REG MVLS_G1 0x0b) := by
  unfold mvls_atu_exec_exec
  simp only
  split <;> exact ⟨rfl, rfl, rfl⟩

theorem atu_exec_exec_extends (engine : Engine) (dev : mvls_device) (prog : List Insn)
    (op : Nat) (diag : List String) :
    prog <+: (mvls_atu_exec_exec engine dev prog op diag).prog := by
  rw [(atu_exec_exec_fields engine dev prog op diag).2.2]
  exact (mvls_wait_extends _ _ _).trans <| (mvls_read_to_extends _ _ _ _).trans <|
    (mdio_prog_push_extends _ _).trans <| (mdio_prog_push_extends _ _).trans <|
    (mvls_write_extends _ _ _ _).trans (mvls_wait_extends _ _ _)

theorem atu_path_flush (engine : Engine) (dev : mvls_device) :
    mvls_atu_exec engine dev ["atu", "flush"] = mvls_atu_exec_exec engine dev [] 2 [] := by
  simp [mvls_atu_exec, argv_pop]

theorem atu_path_flush_all (engine : Engine) (dev : mvls_device) :
    mvls_atu_exec engine dev ["atu", "flush", "all"] =
      mvls_atu_exec_exec engine dev [] 2 [] := by
  simp [mvls_atu_exec, mvls_atu_exec_read_stat, argv_pop]

theorem atu_path_flush_all_static (engine : Engine) (dev : mvls_device) :
    mvls_atu_exec engine dev ["atu", "flush", "all", "static"] =
      mvls_atu_exec_exec engine dev [] 1 [] := by
  simp [mvls_atu_exec, mvls_atu_exec_read_stat, argv_pop]

theorem atu_path_flush_fid (engine : Engine) (dev : mvls_device) (fid : String)
    (hall : fid ≠ "all") (hfid : 0 ≤ strtol fid) :
    mvls_atu_exec engine dev ["atu", "flush", fid] =
      mvls_atu_exec_exec engine dev
        (mvls_write dev
          (mdio_prog_push
            (mdio_prog_push (mvls_read_to dev [] (MVLS_REG MVLS_G1 0x01) 0)
              (INSN Op.AND (REG 0) (IMM 0xf0000) (REG 0)))
            (INSN Op.OR (REG 0) (IMM ((strtol fid).toNat &&& 0xfff)) (REG 0)))
          (MVLS_REG MVLS_G1 0x01) (REG 0)) 6 [] := by
  have h : ¬ strtol fid < 0 := by omega
  simp [mvls_atu_exec, mvls_atu_exec_read_stat, argv_pop, hall, h]

theorem atu_path_flush_fid_static (engine : Engine) (dev : mvls_device) (fid : String)
    (hall : fid ≠ "all") (hfid : 0 ≤ strtol fid) :
    mvls_atu_exec engine dev ["atu", "flush", fid, "static"] =
      mvls_atu_exec_exec engine dev
        (mvls_write dev
          (mdio_prog_push
            (mdio_prog_push (mvls_read_to dev [] (MVLS_REG MVLS_G1 0x01) 0)
              (INSN Op.AND (REG 0) (IMM 0xf0000) (REG 0)))
            (INSN Op.OR (REG 0) (IMM ((strtol fid).toNat &&& 0xfff)) (REG 0)))
          (MVLS_REG MVLS_G1 0x01) (REG 0)) 5 [] := by
  have h : ¬ strtol fid < 0 := by omega
  simp [mvls_atu_exec, mvls_atu_exec_read_stat, argv_pop, hall, h]

theorem atu_read_stat_reaches_exec (engine : Engine) (dev : mvls_device) (prog : List Insn)
    (op : Nat) (hop : op = 0 ∨ op = 4) (argv : List String) :
    ∃ op2 diag, op2 < 8 ∧
      mvls_atu_exec_read_stat engine dev prog op argv =
        mvls_atu_exec_exec engine dev prog op2 diag := by
  unfold mvls_atu_exec_read_stat
  cases argv with
  | nil =>
    refine ⟨(op + 2) % 256, [], ?_, rfl⟩
    rcases hop with h | h <;> subst h <;> decide
  | cons a rest =>
    by_cases hs : a = "static"
    · refine ⟨(op + 1) % 256, [], ?_, ?_⟩
      · rcases hop with h | h <;> subst h <;> decide
      · simp [argv_pop, hs]
    · refine ⟨op, ["ERROR: Invalid option"], ?_, ?_⟩
      · rcases hop with h | h <;> subst h <;> decide
      · simp [argv_pop, hs]

theorem atu_reaches_exec (engine : Engine) (dev : mvls_device) (argv : List String)
    (h : (mvls_atu_exec engine dev argv).submitted = true) :
    ∃ pre op diag, op < 8 ∧
      mvls_atu_exec engine dev argv = mvls_atu_exec_exec engine dev pre op diag := by
  unfold mvls_atu_exec at h ⊢
  cases argv with
  | nil => simp [argv_pop] at h
  | cons a0 argv1 =>
    cases argv1 with
    | nil => simp [argv_pop] at h
    | cons a1 argv2 =>
      by_cases hf : a1 = "flush"
      · cases argv2 with
        | nil => exact ⟨[], 2, [], by decide, by simp [argv_pop, hf]⟩
        | cons a2 argv3 =>
          by_cases ha : a2 = "all"
          · obtain ⟨op2, diag, hlt, heq⟩ :=
              atu_read_stat_reaches_exec engine dev [] 0 (Or.inl rfl) argv3
            exact ⟨[], op2, diag, hlt, by simp [argv_pop, hf, ha, heq]⟩
          · by_cases hn : strtol a2 < 0
            · simp [argv_pop, hf, ha, hn] at h
            · obtain ⟨op2, diag, hlt, heq⟩ :=
                atu_read_stat_reaches_exec engine dev
                  (mvls_write dev
                    (mdio_prog_push
                      (mdio_prog_push (mvls_read_to dev [] (MVLS_REG MVLS_G1 0x01) 0)
                        (INSN Op.AND (REG 0) (IMM 0xf0000) (REG 0)))
                      (INSN Op.OR (REG 0) (IMM ((strtol a2).toNat &&& 0xfff)) (REG 0)))
                    (MVLS_REG MVLS_G1 0x01) (REG 0)) 4 (Or.inr rfl) argv3
              refine ⟨mvls_write dev
                    (mdio_prog_push
                      (mdio_prog_push (mvls_read_to dev [] (MVLS_REG MVLS_G1 0x01) 0)
                        (INSN Op.AND (REG 0) (IMM 0xf0000) (REG 0)))
                      (INSN Op.OR (REG 0) (IMM ((strtol a2).toNat &&& 0xfff)) (REG 0)))
                    (MVLS_REG MVLS_G1 0x01) (REG 0), op2, diag, hlt, ?_⟩
              simp [argv_pop, hf, ha, hn, heq]
      · simp [argv_pop, hf] at h

theorem atu_exec_exec_places_op (engine : Engine) (dev : mvls_device) (prog : List Insn)
    (op : Nat) (diag : List String) :
    atu_places_op dev (mvls_atu_exec_exec engine dev prog op diag) op :=
  ⟨(atu_exec_exec_fields engine dev prog op diag).2.1,
   (atu_exec_exec_fields engine dev prog op diag).1,
   _, (atu_exec_exec_fields engine dev prog op diag).2.2⟩

/-- C1: after the `atu` token, the operation code placed in the operation
field (bits 14-12) of the value written to the ATU operation register is 2 for
`flush`, 2 for `flush all`, 1 for `flush all static`, 6 for `flush <fid>` and
5 for `flush <fid> static`, for every token `<fid>` other than `all` that
`strtol` reads as a non-negative number. -/
theorem atu_flush_op_table (engine : Engine) (dev : mvls_device) (fid : String)
    (hall : fid ≠ "all") (hfid : 0 ≤ strtol fid) :
    atu_places_op dev (mvls_atu_exec engine dev ["atu", "flush"]) 2 ∧
    atu_places_op dev (mvls_atu_exec engine dev ["atu", "flush", "all"]) 2 ∧
    atu_places_op dev (mvls_atu_exec engine dev ["atu", "flush", "all", "static"]) 1 ∧
    atu_places_op dev (mvls_atu_exec engine dev ["atu", "flush", fid]) 6 ∧
    atu_places_op dev (mvls_atu_exec engine dev ["atu", "flush", fid, "static"]) 5 ∧
    ∀ op, op < 8 → ((BIT 15 ||| (op <<< 12)) >>> 12) &&& 7 = op := by
  refine ⟨?_, ?_, ?_, ?_, ?_, ?_⟩
  · rw [atu_path_flush]; exact atu_exec_exec_places_op _ _ _ _ _
  · rw [atu_path_flush_all]; exact atu_exec_exec_places_op _ _ _ _ _
  · rw [atu_path_flush_all_static]; exact atu_exec_exec_places_op _ _ _ _ _
  · rw [atu_path_flush_fid engine dev fid hall hfid]; exact atu_exec_exec_places_op _ _ _ _ _
  · rw [atu_path_flush_fid_static engine dev fid hall hfid]
    exact atu_exec_exec_places_op _ _ _ _ _
  · intro op hop
    interval_cases op <;> decide

theorem atu_flush_op_table_witness :
    atu_places_op ⟨0⟩ (mvls_atu_exec (fun _ => ([], 0)) ⟨0⟩ ["atu", "flush", "7", "static"]) 5 ∧
    atu_places_op ⟨0⟩ (mvls_atu_exec (fun _ => ([], 0)) ⟨0⟩ ["atu", "flush", "7"]) 6 :=
  ⟨(atu_flush_op_table (fun _ => ([], 0)) ⟨0⟩ "7" (by decide) (by decide)).2.2.2.2.1,
   (atu_flush_op_table (fun _ => ([], 0)) ⟨0⟩ "7" (by decide) (by decide)).2.2.2.1⟩

/-- C2, evaluated on the code: with a token other than `static` after
`flush all` or after `flush <fid>`, `mvls_atu_exec` writes the error message
but does not return; it builds the ATU program with operation code 0 (resp.
4), submits it and returns 0 when the transfer succeeds. -/
theorem atu_flush_invalid_option_runs :
    mvls_atu_exec (fun _ => ([], 0)) ⟨0⟩ ["atu", "flush", "all", "foo"] =
      { ret := 0, op := 0, submitted := true, diag := ["ERROR: Invalid option"],
        prog :=
          [INSN Op.READ (IMM 0x1b) (IMM 0x0b) (REG 0),
           INSN Op.AND (REG 0) (IMM 0x8000) (REG 0),
           INSN Op.JEQ (REG 0) (IMM 0x8000) (GOTO 2 0),
           INSN Op.READ (IMM 0x1b) (IMM 0x0b) (REG 0),
           INSN Op.AND (REG 0) (IMM 0xfff) (REG 0),
           INSN Op.OR (REG 0) (IMM 0x8000) (REG 0),
           INSN Op.WRITE (IMM 0x1b) (IMM 0x0b) (REG 0),
           INSN Op.READ (IMM 0x1b) (IMM 0x0b) (REG 0),
           INSN Op.AND (REG 0) (IMM 0x8000) (REG 0),
           INSN Op.JEQ (REG 0) (IMM 0x8000) (GOTO 9 7)] } ∧
    (mvls_atu_exec (fun _ => ([], 0)) ⟨0⟩ ["atu", "flush", "7", "foo"]).ret = 0 ∧
    (mvls_atu_exec (fun _ => ([], 0)) ⟨0⟩ ["atu", "flush", "7", "foo"]).op = 4 ∧
    (mvls_atu_exec (fun _ => ([], 0)) ⟨0⟩ ["atu", "flush", "7", "foo"]).submitted = true ∧
    (mvls_atu_exec (fun _ => ([], 0)) ⟨0⟩ ["atu", "flush", "7", "foo"]).diag =
      ["ERROR: Invalid option"] := by
  decide

/-- C3, evaluated on the code: a non-numeric token after `flush`, for which
`strtol` yields 0, is taken as FID 0: the FID read-modify-write and the ATU
program with operation code 6 are built and submitted and the function returns
0, whereas a negative number returns 1 with an empty, unsubmitted program. -/
theorem atu_flush_unparseable_fid_runs :
    strtol "foo" = 0 ∧
    mvls_atu_exec (fun _ => ([], 0)) ⟨0⟩ ["atu", "flush", "foo"] =
      { ret := 0, op := 6, submitted := true, diag := [],
        prog :=
          [INSN Op.READ (IMM 0x1b) (IMM 0x01) (REG 0),
           INSN Op.AND (REG 0) (IMM 0xf0000) (REG 0),
           INSN Op.OR (REG 0) (IMM 0) (REG 0),
           INSN Op.WRITE (IMM 0x1b) (IMM 0x01) (REG 0),
           INSN Op.READ (IMM 0x1b) (IMM 0x0b) (REG 0),
           INSN Op.AND (REG 0) (IMM 0x8000) (REG 0),
           INSN Op.JEQ (REG 0) (IMM 0x8000) (GOTO 6 4),
           INSN Op.READ (IMM 0x1b) (IMM 0x0b) (REG 0),
           INSN Op.AND (REG 0) (IMM 0xfff) (REG 0),
           INSN Op.OR (REG 0) (IMM 0xe000) (REG 0),
           INSN Op.WRITE (IMM 0x1b) (IMM 0x0b) (REG 0),
           INSN Op.READ (IMM 0x1b) (IMM 0x0b) (REG 0),
           INSN Op.AND (REG 0) (IMM 0x8000) (REG 0),
           INSN Op.JEQ (REG 0) (IMM 0x8000) (GOTO 13 11)] } ∧
    mvls_atu_exec (fun _ => ([], 0)) ⟨0⟩ ["atu", "flush", "-1"] =
      { ret := 1, op := 0, submitted := false, diag := ["ERROR: Invalid FID"], prog := [] } := by
  decide

theorem alu_and_or (rf : Nat → Nat) (m v : Nat) :
    alu_step (alu_step rf (INSN Op.AND (REG 0) (IMM m) (REG 0)))
      (INSN Op.OR (REG 0) (IMM v) (REG 0)) 0 = (rf 0 &&& m) ||| v := by
  simp [alu_step, INSN, REG, IMM, Arg.eval]

theorem mvls_write_reg0_first (dev : mvls_device) (prog : List Insn) (reg : Nat) :
    ∃ insn rest, mvls_write dev prog reg (REG 0) = prog ++ insn :: rest ∧
      insn.op = Op.WRITE ∧ insn.arg2 = REG 0 := by
  by_cases h : dev.id = 0
  · exact ⟨_, _, mvls_write_direct dev prog reg (REG 0) h, rfl, rfl⟩
  · exact ⟨_, _, mvls_write_indirect dev prog reg (REG 0) h, rfl, rfl⟩

/-- C8: whenever `mvls_atu_exec` submits a program (every grammar path of
`atu flush`, direct or indirect device), the program ends with: poll of
(Global1, 0x0b), read of (Global1, 0x0b) into working register 0, AND with
0xfff, OR with `0x8000 | (op << 12)`, write of working register 0 back to
(Global1, 0x0b), poll again, with `op < 8`; the two combining instructions
turn a value `old` of working register 0 into
`(old & 0xfff) | 0x8000 | (op << 12)`, and the write that follows takes
working register 0 as its value in its first instruction.  For
`atu flush 7 static` the operation code is 5. -/
theorem atu_exec_sequence (engine : Engine) (dev : mvls_device) :
    (∀ argv : List String, (mvls_atu_exec engine dev argv).submitted = true →
      (mvls_atu_exec engine dev argv).op < 8 ∧
      ∃ pre, pre <+: (mvls_atu_exec engine dev argv).prog ∧
        (mvls_atu_exec engine dev argv).prog =
          mvls_wait dev
            (mvls_write dev
              (mdio_prog_push
                (mdio_prog_push
                  (mvls_read_to dev (mvls_wait dev pre (MVLS_REG MVLS_G1 0x0b))
                    (MVLS_REG MVLS_G1 0x0b) 0)
                  (INSN Op.AND (REG 0) (IMM 0xfff) (REG 0)))
                (INSN Op.OR (REG 0)
                  (IMM (BIT 15 ||| ((mvls_atu_exec engine dev argv).op <<< 12))) (REG 0)))
              (MVLS_REG MVLS_G1 0x0b) (REG 0))
            (MVLS_REG MVLS_G1 0x0b)) ∧
    (∀ (rf : Nat → Nat) (op : Nat),
      alu_step (alu_step rf (INSN Op.AND (REG 0) (IMM 0xfff) (REG 0)))
        (INSN Op.OR (REG 0) (IMM (BIT 15 ||| (op <<< 12))) (REG 0)) 0 =
          (rf 0 &&& 0xfff) ||| 0x8000 ||| (op <<< 12)) ∧
    (∀ prog : List Insn, ∃ insn rest,
      mvls_write dev prog (MVLS_REG MVLS_G1 0x0b) (REG 0) = prog ++ insn :: rest ∧
      insn.op = Op.WRITE ∧ insn.arg2 = REG 0) ∧
    (mvls_atu_exec engine dev ["atu", "flush", "7", "static"]).submitted = true ∧
    (mvls_atu_exec engine dev ["atu", "flush", "7", "static"]).op = 5 ∧
    (mvls_atu_exec engine ⟨0⟩ ["atu", "flush", "7", "static"]).prog =
      [INSN Op.READ (IMM 0x1b) (IMM 0x01) (REG 0),
       INSN Op.AND (REG 0) (IMM 0xf0000) (REG 0),
       INSN Op.OR (REG 0) (IMM 7) (REG 0),
       INSN Op.WRITE (IMM 0x1b) (IMM 0x01) (REG 0),
       INSN Op.READ (IMM 0x1b) (IMM 0x0b) (REG 0),
       INSN Op.AND (REG 0) (IMM 0x8000) (REG 0),
       INSN Op.JEQ (REG 0) (IMM 0x8000) (GOTO 6 4),
       INSN Op.READ (IMM 0x1b) (IMM 0x0b) (REG 0),
       INSN Op.AND (REG 0) (IMM 0xfff) (REG 0),
       INSN Op.OR (REG 0) (IMM (0x8000 ||| (5 <<< 12))) (REG 0),
       INSN Op.WRITE (IMM 0x1b) (IMM 0x0b) (REG 0),
       INSN Op.READ (IMM 0x1b) (IMM 0x0b) (REG 0),
       INSN Op.AND (REG 0) (IMM 0x8000) (REG 0),
       INSN Op.JEQ (REG 0) (IMM 0x8000) (GOTO 13 11)] := by
  have h7 : ∀ d : mvls_device, mvls_atu_exec engine d ["atu", "flush", "7", "static"] = _ :=
    fun d => atu_path_flush_fid_static engine d "7" (by decide) (by decide)
  refine ⟨?_, ?_, ?_, ?_, ?_, ?_⟩
  · intro argv h
    obtain ⟨pre, op, diag, hlt, heq⟩ := atu_reaches_exec engine dev argv h
    rw [heq]
    obtain ⟨hop, -, hprog⟩ := atu_exec_exec_fields engine dev pre op diag
    rw [hop]
    exact ⟨hlt, pre, atu_exec_exec_extends engine dev pre op diag, hprog⟩
  · intro rf op
    rw [alu_and_or, ← Nat.lor_assoc]
    rfl
  · intro prog
    exact mvls_write_reg0_first dev prog _
  · rw [h7]; exact (atu_exec_exec_fields _ _ _ _ _).2.1
  · rw [h7]; exact (atu_exec_exec_fields _ _ _ _ _).1
  · rw [h7, (atu_exec_exec_fields _ _ _ _ _).2.2]
    decide

theorem atu_exec_sequence_witness :
    (mvls_atu_exec (fun _ => ([], 0)) ⟨3⟩ ["atu", "flush", "all", "static"]).submitted = true ∧
    (mvls_atu_exec (fun _ => ([], 0)) ⟨3⟩ ["atu", "flush", "all", "static"]).op < 8 :=
  ⟨by decide,
   ((atu_exec_sequence (fun _ => ([], 0)) ⟨3⟩).1 ["atu", "flush", "all", "static"]
      (by decide)).1⟩

theorem fid_field_bits (old fid : Nat) :
    (∀ i, i < 12 → ((old &&& 0xf0000) ||| (fid &&& 0xfff)).testBit i = fid.testBit i) ∧
    ((old &&& 0xf0000) ||| (fid &&& 0xfff)).testBit 16 = old.testBit 16 := by
  constructor
  · intro i hi
    have hc : ∀ j, j < 12 → Nat.testBit 0xf0000 j = false ∧ Nat.testBit 0xfff j = true := by
      decide
    rw [Nat.testBit_lor, Nat.testBit_land, Nat.testBit_land, (hc i hi).1, (hc i hi).2]
    simp
  · rw [Nat.testBit_lor, Nat.testBit_land, Nat.testBit_land]
    have h1 : Nat.testBit 0xf0000 16 = true := by decide
    have h2 : Nat.testBit 0xfff 16 = false := by decide
    rw [h1, h2]; simp

theorem atu_exec_exec_no_fid_mask (engine : Engine) (dev : mvls_device) (op : Nat)
    (diag : List String) :
    INSN Op.AND (REG 0) (IMM 0xf0000) (REG 0) ∉
      (mvls_atu_exec_exec engine dev [] op diag).prog := by
  rw [(atu_exec_exec_fields engine dev [] op diag).2.2]
  unfold mvls_wait
  by_cases h : dev.id = 0
  · simp [mvls_read_to_direct, mvls_write_direct, h, mdio_prog_push, INSN, IMM, REG,
      MVLS_CMD_BUSY, BIT]
  · simp [mvls_read_to_indirect, mvls_write_indirect, h, mdio_prog_push, INSN, IMM, REG,
      MVLS_CMD_BUSY, BIT]

/-- C9: for `atu flush <fid>` and `atu flush <fid> static` with a token that
`strtol` reads as a number >= 0, the program begins with a read of
(Global1, 0x01) into working register 0, an AND with 0xf0000, an OR with
`fid & 0xfff` and a write of working register 0 back to (Global1, 0x01), and
continues with the ATU operation-register sequence; the two combining
instructions produce a value whose bits 0-11 are those of the FID and whose
bit 16 is that of the value read.  On the `flush`, `flush all` and
`flush all static` paths the program is the ATU operation-register sequence
alone and the AND with 0xf0000 does not occur in it. -/
theorem atu_flush_fid_rmw (engine : Engine) (dev : mvls_device) (fid : String)
    (hall : fid ≠ "all") (hfid : 0 ≤ strtol fid) :
    (∀ argv, argv = ["atu", "flush", fid] ∨ argv = ["atu", "flush", fid, "static"] →
      mvls_write dev
          (mdio_prog_push
            (mdio_prog_push (mvls_read_to dev [] (MVLS_REG MVLS_G1 0x01) 0)
              (INSN Op.AND (REG 0) (IMM 0xf0000) (REG 0)))
            (INSN Op.OR (REG 0) (IMM ((strtol fid).toNat &&& 0xfff)) (REG 0)))
          (MVLS_REG MVLS_G1 0x01) (REG 0)
        <+: (mvls_atu_exec engine dev argv).prog ∧
      (mvls_atu_exec engine dev argv).prog =
        (mvls_atu_exec_exec engine dev
          (mvls_write dev
            (mdio_prog_push
              (mdio_prog_push (mvls_read_to dev [] (MVLS_REG MVLS_G1 0x01) 0)
                (INSN Op.AND (REG 0) (IMM 0xf0000) (REG 0)))
              (INSN Op.OR (REG 0) (IMM ((strtol fid).toNat &&& 0xfff)) (REG 0)))
            (MVLS_REG MVLS_G1 0x01) (REG 0))
          (mvls_atu_exec engine dev argv).op []).prog) ∧
    (∀ rf : Nat → Nat,
      alu_step (alu_step rf (INSN Op.AND (REG 0) (IMM 0xf0000) (REG 0)))
        (INSN Op.OR (REG 0) (IMM ((strtol fid).toNat &&& 0xfff)) (REG 0)) 0 =
          (rf 0 &&& 0xf0000) ||| ((strtol fid).toNat &&& 0xfff) ∧
      (∀ i, i < 12 →
        ((rf 0 &&& 0xf0000) ||| ((strtol fid).toNat &&& 0xfff)).testBit i =
          (strtol fid).toNat.testBit i) ∧
      ((rf 0 &&& 0xf0000) ||| ((strtol fid).toNat &&& 0xfff)).testBit 16 =
        (rf 0).testBit 16) ∧
    (∀ argv, argv = ["atu", "flush"] ∨ argv = ["atu", "flush", "all"] ∨
        argv = ["atu", "flush", "all", "static"] →
      (mvls_atu_exec engine dev argv).prog =
        (mvls_atu_exec_exec engine dev [] (mvls_atu_exec engine dev argv).op []).prog ∧
      INSN Op.AND (REG 0) (IMM 0xf0000) (REG 0) ∉ (mvls_atu_exec engine dev argv).prog) := by
  refine ⟨?_, ?_, ?_⟩
  · intro argv hargv
    rcases hargv with h | h <;> subst h
    · rw [atu_path_flush_fid engine dev fid hall hfid,
        (atu_exec_exec_fields _ _ _ _ _).1]
      exact ⟨atu_exec_exec_extends _ _ _ _ _, rfl⟩
    · rw [atu_path_flush_fid_static engine dev fid hall hfid,
        (atu_exec_exec_fields _ _ _ _ _).1]
      exact ⟨atu_exec_exec_extends _ _ _ _ _, rfl⟩
  · intro rf
    exact ⟨alu_and_or rf _ _, (fid_field_bits _ _).1, (fid_field_bits _ _).2⟩
  · intro argv hargv
    rcases hargv with h | h | h <;> subst h
    · rw [atu_path_flush, (atu_exec_exec_fields _ _ _ _ _).1]
      exact ⟨rfl, atu_exec_exec_no_fid_mask _ _ _ _⟩
    · rw [atu_path_flush_all, (atu_exec_exec_fields _ _ _ _ _).1]
      exact ⟨rfl, atu_exec_exec_no_fid_mask _ _ _ _⟩
    · rw [atu_path_flush_all_static, (atu_exec_exec_fields _ _ _ _ _).1]
      exact ⟨rfl, atu_exec_exec_no_fid_mask _ _ _ _⟩

theorem atu_flush_fid_rmw_witness :
    (mvls_atu_exec (fun _ => ([], 0)) ⟨0⟩ ["atu", "flush", "0x123"]).prog.take 4 =
      [INSN Op.READ (IMM 0x1b) (IMM 0x01) (REG 0),
       INSN Op.AND (REG 0) (IMM 0xf0000) (REG 0),
       INSN Op.OR (REG 0) (IMM 0x123) (REG 0),
       INSN Op.WRITE (IMM 0x1b) (IMM 0x01) (REG 0)] ∧
    [INSN Op.READ (IMM 0x1b) (IMM 0x01) (REG 0),
       INSN Op.AND (REG 0) (IMM 0xf0000) (REG 0),
       INSN Op.OR (REG 0) (IMM 0x123) (REG 0),
       INSN Op.WRITE (IMM 0x1b) (IMM 0x01) (REG 0)] <+:
      (mvls_atu_exec (fun _ => ([], 0)) ⟨0⟩ ["atu", "flush", "0x123"]).prog :=
  ⟨by decide,
   ((atu_flush_fid_rmw (fun _ => ([], 0)) ⟨0⟩ "0x123" (by decide) (by decide)).1
      ["atu", "flush", "0x123"] (Or.inl rfl)).1⟩

/-! ### Counter decoding -/

theorem counter_same_iff (a b : Fin 6 → Nat) : counter_same a b = true ↔ a = b := by
  unfold counter_same
  simp only [Bool.and_eq_true, beq_iff_eq]
  constructor
  · rintro ⟨⟨⟨⟨⟨h0, h1⟩, h2⟩, h3⟩, h4⟩, h5⟩
    funext n
    match n with
    | ⟨0, _⟩ => exact h0
    | ⟨1, _⟩ => exact h1
    | ⟨2, _⟩ => exact h2
    | ⟨3, _⟩ => exact h3
    | ⟨4, _⟩ => exact h4
    | ⟨5, _⟩ => exact h5
  · intro h; subst h; simp

theorem counter_port_snapshot_self (data : List Nat)
    (st : (Fin 11 → Fin 6 → Nat) × List CounterRow) (i : Fin 11) :
    (counter_port data st i).1 i = counter_now data i := by
  unfold counter_port
  by_cases h : counter_same (st.1 i) (counter_now data i) = true
  · simp only [h, if_true]; exact (counter_same_iff _ _).1 h
  · simp [h]

theorem counter_port_snapshot_other (data : List Nat)
    (st : (Fin 11 → Fin 6 → Nat) × List CounterRow) (i j : Fin 11) (hji : j ≠ i) :
    (counter_port data st i).1 j = st.1 j := by
  unfold counter_port
  by_cases h : counter_same (st.1 i) (counter_now data i) = true
  · simp [h]
  · simp [h, Function.update_noteq hji]

theorem counter_fold_snapshot (data : List Nat) (l : List (Fin 11)) :
    ∀ (st : (Fin 11 → Fin 6 → Nat) × List CounterRow) (i : Fin 11),
      (l.foldl (counter_port data) st).1 i =
        if i ∈ l then counter_now data i else st.1 i := by
  induction l with
  | nil => intro st i; simp
  | cons j l ih =>
    intro st i
    rw [List.foldl_cons, ih]
    by_cases hl : i ∈ l
    · simp [hl]
    · by_cases hij : i = j
      · subst hij; simp [hl, counter_port_snapshot_self]
      · simp [hl, hij, counter_port_snapshot_other data st j i hij]

/-- The row `mvls_counter_cb` prints for port `i` when its snapshot row is
`prev`, if it prints one. -/
theorem counter_port_rows (data : List Nat)
    (st : (Fin 11 → Fin 6 → Nat) × List CounterRow) (i : Fin 11) :
    (counter_port data st i).2 =
      st.2 ++ (if st.1 i = counter_now data i then []
        else [⟨i.val, sub32 (counter_now data i 1) (st.1 i 1),
          sub32 (counter_now data i 4) (st.1 i 4),
          sub32 (counter_now data i 0) (st.1 i 0),
          sub32 (counter_now data i 3) (st.1 i 3),
          sub32 (counter_now data i 2) (st.1 i 2),
          sub32 (counter_now data i 5) (st.1 i 5)⟩]) := by
  unfold counter_port
  by_cases h : counter_same (st.1 i) (counter_now data i) = true
  · have e := (counter_same_iff _ _).1 h
    simp only [h, if_true]
    simp [e]
  · have h2 : ¬ st.1 i = counter_now data i := fun e => h ((counter_same_iff _ _).2 e)
    simp [h, h2]

theorem counter_fold_rows (data : List Nat) (l : List (Fin 11)) (hl : l.Nodup) :
    ∀ (st : (Fin 11 → Fin 6 → Nat) × List CounterRow),
      (l.foldl (counter_port data) st).2 =
        st.2 ++ (l.flatMap fun i =>
          if st.1 i = counter_now data i then []
          else [(⟨i.val, sub32 (counter_now data i 1) (st.1 i 1),
            sub32 (counter_now data i 4) (st.1 i 4),
            sub32 (counter_now data i 0) (st.1 i 0),
            sub32 (counter_now data i 3) (st.1 i 3),
            sub32 (counter_now data i 2) (st.1 i 2),
            sub32 (counter_now data i 5) (st.1 i 5)⟩ : CounterRow)]) := by
  induction l with
  | nil => intro st; simp
  | cons j l ih =>
    intro st
    rw [List.nodup_cons] at hl
    rw [List.foldl_cons, ih hl.2, counter_port_rows, List.flatMap_cons, List.append_assoc]
    congr 2
    apply List.flatMap_congr
    intro i hi
    have hij : i ≠ j := fun e => hl.1 (e ▸ hi)
    rw [counter_port_snapshot_other data st j i hij]

theorem sub32_spec (a b : Nat) (ha : a < 2 ^ 32) (hb : b < 2 ^ 32) :
    (sub32 a b : Int) = ((a : Int) - (b : Int)) % 2 ^ 32 ∧ sub32 a 0 = a ∧ sub32 a a = 0 := by
  unfold sub32
  refine ⟨?_, ?_, ?_⟩
  · rw [Nat.mod_eq_of_lt hb]
    omega
  · omega
  · omega

theorem counter_now_lt (data : List Nat) (i : Fin 11) (n : Fin 6) :
    counter_now data i n < 2 ^ 32 :=
  Nat.mod_lt _ (by decide)

theorem counter_now_halves (hi lo : Nat) (h1 : hi < 2 ^ 16) (h2 : lo < 2 ^ 16) :
    ((hi <<< 16) ||| lo) % 2 ^ 32 = hi * 65536 + lo := by
  rw [Nat.shiftLeft_eq, Nat.mul_comm, ← Nat.mul_add_lt_is_or h2]
  omega

/-- C11: for every capture stream of length 132 and every prior snapshot,
after `mvls_counter_cb` the snapshot entry for port `i` (0-10) and counter `n`
(0-5) is the new raw reading: the 32-bit value with the capture at position
`12 * i + 2 * n` as high half and the capture at `12 * i + 2 * n + 1` as low
half (for captures below 2^16, first * 65536 + second), whether or not a row
was printed for the port; the family stored in the context is kept. -/
theorem mvls_counter_cb_snapshot (data : List Nat) (err : Int) (ctx : mvls_counter_ctx)
    (hlen : data.length = 132) (i : Fin 11) (n : Fin 6) :
    (mvls_counter_cb data data.length err ctx).ctx.prev i n =
      ((data.getD (12 * i.val + 2 * n.val) 0 <<< 16) |||
        data.getD (12 * i.val + 2 * n.val + 1) 0) % 2 ^ 32 ∧
    (data.getD (12 * i.val + 2 * n.val) 0 < 2 ^ 16 →
      data.getD (12 * i.val + 2 * n.val + 1) 0 < 2 ^ 16 →
      (mvls_counter_cb data data.length err ctx).ctx.prev i n =
        data.getD (12 * i.val + 2 * n.val) 0 * 65536 +
          data.getD (12 * i.val + 2 * n.val + 1) 0) ∧
    (mvls_counter_cb data data.length err ctx).ctx.fam = ctx.fam := by
  have hne : ¬ ((data.length : Int) ≠ 11 * 6 * 2) := by rw [hlen]; decide
  have hprev : (mvls_counter_cb data data.length err ctx).ctx.prev i n =
      counter_now data i n := by
    unfold mvls_counter_cb
    rw [if_neg hne]
    simp only
    rw [counter_fold_snapshot]
    have hmem : i ∈ ([0, 1, 2, 3, 4, 5, 6, 7, 8, 9, 10] : List (Fin 11)) := by
      revert i; decide
    rw [if_pos hmem]
  refine ⟨hprev, ?_, ?_⟩
  · intro h1 h2
    rw [hprev]
    exact counter_now_halves _ _ h1 h2
  · unfold mvls_counter_cb
    rw [if_neg hne]

theorem mvls_counter_cb_snapshot_witness :
    (mvls_counter_cb ([0, 12, 0, 20, 0, 31, 0, 40, 0, 55, 0, 60] ++ List.replicate 120 0)
      ([0, 12, 0, 20, 0, 31, 0, 40, 0, 55, 0, 60] ++ List.replicate 120 0).length 0
      ⟨mvls_famliy.FAM_OPAL, fun _ _ => 7⟩).ctx.prev 0 2 = 31 :=
  (mvls_counter_cb_snapshot ([0, 12, 0, 20, 0, 31, 0, 40, 0, 55, 0, 60] ++ List.replicate 120 0)
      0 ⟨mvls_famliy.FAM_OPAL, fun _ _ => 7⟩ (by simp) 0 2).1

theorem mvls_counter_cb_rows_eq (data : List Nat) (err : Int) (ctx : mvls_counter_ctx)
    (hlen : data.length = 132) :
    (mvls_counter_cb data data.length err ctx).rows =
      ([0, 1, 2, 3, 4, 5, 6, 7, 8, 9, 10] : List (Fin 11)).flatMap fun i =>
        if ctx.prev i = counter_now data i then []
        else [(⟨i.val, sub32 (counter_now data i 1) (ctx.prev i 1),
          sub32 (counter_now data i 4) (ctx.prev i 4),
          sub32 (counter_now data i 0) (ctx.prev i 0),
          sub32 (counter_now data i 3) (ctx.prev i 3),
          sub32 (counter_now data i 2) (ctx.prev i 2),
          sub32 (counter_now data i 5) (ctx.prev i 5)⟩ : CounterRow)] := by
  have hne : ¬ ((data.length : Int) ≠ 11 * 6 * 2) := by rw [hlen]; decide
  unfold mvls_counter_cb
  rw [if_neg hne]
  simp only
  rw [counter_fold_rows data _ (by decide)]
  rfl

/-- C12: for every capture stream of length 132, `mvls_counter_cb` prints a
row for port `i` exactly when the port's six recombined counters differ from
its snapshot, in port order, and the row's values are the differences new - old
modulo 2^32 with Unicast Rx = index 0, Unicast Tx = index 3, Multicast Rx =
index 2, Multicast Tx = index 5, Broadcast Rx = index 1, Broadcast Tx =
index 4; against an all-zero snapshot row the values are the raw values; for
snapshot [10,20,30,40,50,60] and reading [12,20,31,40,55,60] the row is
Unicast (2,0), Multicast (1,0), Broadcast (0,5). -/
theorem mvls_counter_cb_rows (data : List Nat) (err : Int) (ctx : mvls_counter_ctx)
    (hlen : data.length = 132) :
    (mvls_counter_cb data data.length err ctx).rows =
      (([0, 1, 2, 3, 4, 5, 6, 7, 8, 9, 10] : List (Fin 11)).flatMap fun i =>
        if ctx.prev i = counter_now data i then []
        else [(⟨i.val, sub32 (counter_now data i 1) (ctx.prev i 1),
          sub32 (counter_now data i 4) (ctx.prev i 4),
          sub32 (counter_now data i 0) (ctx.prev i 0),
          sub32 (counter_now data i 3) (ctx.prev i 3),
          sub32 (counter_now data i 2) (ctx.prev i 2),
          sub32 (counter_now data i 5) (ctx.prev i 5)⟩ : CounterRow)]) ∧
    (∀ i : Fin 11,
      (∃ row ∈ (mvls_counter_cb data data.length err ctx).rows, row.port = i.val) ↔
        ctx.prev i ≠ counter_now data i) ∧
    (∀ row ∈ (mvls_counter_cb data data.length err ctx).rows, ∀ i : Fin 11,
      row.port = i.val →
        row.ucast_rx = sub32 (counter_now data i 0) (ctx.prev i 0) ∧
        row.ucast_tx = sub32 (counter_now data i 3) (ctx.prev i 3) ∧
        row.mcast_rx = sub32 (counter_now data i 2) (ctx.prev i 2) ∧
        row.mcast_tx = sub32 (counter_now data i 5) (ctx.prev i 5) ∧
        row.bcast_rx = sub32 (counter_now data i 1) (ctx.prev i 1) ∧
        row.bcast_tx = sub32 (counter_now data i 4) (ctx.prev i 4)) ∧
    (∀ (i : Fin 11) (n : Fin 6), counter_now data i n < 2 ^ 32 ∧
      ((sub32 (counter_now data i n) (ctx.prev i n) : Nat) : Int) =
        ((counter_now data i n : Int) - ((ctx.prev i n % 2 ^ 32 : Nat) : Int)) % 2 ^ 32 ∧
      (ctx.prev i n = 0 → sub32 (counter_now data i n) (ctx.prev i n) = counter_now data i n)) ∧
    (mvls_counter_cb ([0, 12, 0, 20, 0, 31, 0, 40, 0, 55, 0, 60] ++ List.replicate 120 0) 132 0
      ⟨mvls_famliy.FAM_OPAL,
        fun i n => if i = 0 then [10, 20, 30, 40, 50, 60].getD n.val 0 else 0⟩).rows =
      [{ port := 0, ucast_rx := 2, ucast_tx := 0, mcast_rx := 1, mcast_tx := 0,
         bcast_rx := 0, bcast_tx := 5 }] := by
  have hrows := mvls_counter_cb_rows_eq data err ctx hlen
  have hmem : ∀ i : Fin 11, i ∈ ([0, 1, 2, 3, 4, 5, 6, 7, 8, 9, 10] : List (Fin 11)) := by
    decide
  refine ⟨hrows, ?_, ?_, ?_, ?_⟩
  · intro i
    rw [hrows]
    constructor
    · rintro ⟨row, hrow, hport⟩
      rw [List.mem_flatMap] at hrow
      obtain ⟨j, -, hj⟩ := hrow
      by_cases hsame : ctx.prev j = counter_now data j
      · simp [hsame] at hj
      · simp only [hsame, if_false, List.mem_singleton] at hj
        subst hj
        have : j = i := Fin.ext hport
        exact this ▸ hsame
    · intro hne
      refine ⟨⟨i.val, sub32 (counter_now data i 1) (ctx.prev i 1),
          sub32 (counter_now data i 4) (ctx.prev i 4),
          sub32 (counter_now data i 0) (ctx.prev i 0),
          sub32 (counter_now data i 3) (ctx.prev i 3),
          sub32 (counter_now data i 2) (ctx.prev i 2),
          sub32 (counter_now data i 5) (ctx.prev i 5)⟩, ?_, rfl⟩
      rw [List.mem_flatMap]
      exact ⟨i, hmem i, by simp [hne]⟩
  · intro row hrow i hport
    rw [hrows, List.mem_flatMap] at hrow
    obtain ⟨j, -, hj⟩ := hrow
    by_cases hsame : ctx.prev j = counter_now data j
    · simp [hsame] at hj
    · simp only [hsame, if_false, List.mem_singleton] at hj
      subst hj
      have : j = i := Fin.ext hport
      subst this
      exact ⟨rfl, rfl, rfl, rfl, rfl, rfl⟩
  · intro i n
    have hlt := counter_now_lt data i n
    refine ⟨hlt, ?_, ?_⟩
    · unfold sub32
      have hb : ctx.prev i n % 2 ^ 32 < 2 ^ 32 := Nat.mod_lt _ (by decide)
      omega
    · intro h0
      rw [h0]
      exact (sub32_spec _ 0 hlt (by decide)).2.1
  · decide!

theorem mvls_counter_cb_rows_witness :
    (List.replicate 132 1).length = 132 ∧
    ((mvls_counter_cb (List.replicate 132 1) (List.replicate 132 1).length 0
        ⟨mvls_famliy.FAM_OPAL, fun _ _ => 0⟩).rows.map fun row => row.port) =
      [0, 1, 2, 3, 4, 5, 6, 7, 8, 9, 10] :=
  ⟨by simp,
   ((mvls_counter_cb_rows (List.replicate 132 1) 0 ⟨mvls_famliy.FAM_OPAL, fun _ _ => 0⟩
      (by simp)).1).symm ▸ by decide!⟩

/-! ### LAG and mask decoding -/

theorem land_one_shiftLeft_ne_zero (v p : Nat) :
    (v &&& (1 <<< p) ≠ 0) ↔ v.testBit p = true := by
  rw [Nat.shiftLeft_eq, Nat.one_mul, Nat.and_two_pow]
  cases h : v.testBit p <;> simp [Nat.pos_iff_ne_zero.1 (Nat.two_pow_pos p)]

theorem mvls_print_portvec_length (v : Nat) : (mvls_print_portvec v).length = 11 := by
  simp [mvls_print_portvec]

theorem mvls_print_portvec_glyph (v p : Nat) (hp : p < 11) :
    (mvls_print_portvec v).getD p none = if v.testBit p = true then some p else none := by
  unfold mvls_print_portvec
  have hbit : (v % 65536).testBit p = v.testBit p := by
    have : (65536 : Nat) = 2 ^ 16 := by decide
    rw [this, Nat.testBit_mod_two_pow]
    simp [show p < 16 by omega]
  rw [List.getD_eq_getElem?_getD, List.getElem?_map, List.getElem?_range hp]
  simp only [Option.map_some', Option.getD_some]
  by_cases hb : v.testBit p = true
  · rw [if_pos hb, if_pos ((land_one_shiftLeft_ne_zero _ _).2 (hbit.trans hb))]
  · rw [if_neg hb, if_neg]
    intro hc
    exact hb (hbit.symm.trans ((land_one_shiftLeft_ne_zero _ _).1 hc))

theorem mvls_lag_cb_tables (data : List Nat) (err : Int) (hlen : data.length = 24) :
    mvls_lag_cb data data.length err =
      (err, some
        ⟨(List.range 16).filterMap fun lag =>
            if data.getD lag 0 &&& 0x7ff = 0 then none
            else some (lag, mvls_print_portvec (data.getD lag 0)),
         (List.range 8).map fun mask =>
            (mask, mvls_print_portvec ((data.drop 16).getD mask 0))⟩) := by
  have hne : ¬ ((data.length : Int) ≠ 16 + 8) := by rw [hlen]; decide
  unfold mvls_lag_cb
  rw [if_neg hne]

/-- C13: for every capture stream of length 24, `mvls_lag_cb` prints a row for
LAG slot `k` (0-15) exactly when the low 11 bits of value `k` are not all
zero, prints all 8 mask rows for the values 16-23 in order, and every printed
row carries the glyphs of its value, where the glyph for port `p` (0-10) marks
membership exactly when bit `p` of the value is set; a LAG value 0x007 is
printed with exactly ports 0, 1, 2 as members and a LAG value 0x800 is
skipped. -/
theorem mvls_lag_cb_rows (data : List Nat) (err : Int) (hlen : data.length = 24) :
    (∃ t, mvls_lag_cb data data.length err = (err, some t) ∧
      (∀ k, k < 16 → ((∃ row ∈ t.lag, row.1 = k) ↔ data.getD k 0 &&& 0x7ff ≠ 0)) ∧
      (∀ row ∈ t.lag, row.1 < 16 ∧ row.2 = mvls_print_portvec (data.getD row.1 0)) ∧
      t.mask = (List.range 8).map fun m => (m, mvls_print_portvec (data.getD (16 + m) 0))) ∧
    (∀ v p, p < 11 →
      (mvls_print_portvec v).length = 11 ∧
      ((mvls_print_portvec v).getD p none = some p ↔ v.testBit p = true) ∧
      ((mvls_print_portvec v).getD p none = none ↔ v.testBit p = false)) ∧
    mvls_print_portvec 0x007 =
      [some 0, some 1, some 2, none, none, none, none, none, none, none, none] ∧
    (mvls_lag_cb ([0x007, 0x800] ++ List.replicate 22 0) 24 0).2.map (fun t => t.lag) =
      some [(0, [some 0, some 1, some 2, none, none, none, none, none, none, none, none])] := by
  refine ⟨?_, ?_, by decide, by decide⟩
  · refine ⟨_, mvls_lag_cb_tables data err hlen, ?_, ?_, ?_⟩
    · intro k hk
      simp only [List.mem_filterMap, List.mem_range]
      constructor
      · rintro ⟨row, ⟨j, hj, hrow⟩, hk2⟩
        by_cases hz : data.getD j 0 &&& 0x7ff = 0
        · rw [if_pos hz] at hrow; cases hrow
        · rw [if_neg hz] at hrow
          cases hrow
          simp only at hk2
          subst hk2
          exact hz
      · intro hnz
        exact ⟨(k, mvls_print_portvec (data.getD k 0)), ⟨k, hk, by rw [if_neg hnz]⟩, rfl⟩
    · intro row hrow
      simp only [List.mem_filterMap, List.mem_range] at hrow
      obtain ⟨j, hj, hrow⟩ := hrow
      by_cases hz : data.getD j 0 &&& 0x7ff = 0
      · rw [if_pos hz] at hrow; cases hrow
      · rw [if_neg hz] at hrow
        cases hrow
        exact ⟨hj, rfl⟩
    · apply List.map_congr_left
      intro m _
      simp [List.getD_eq_getElem?_getD, Nat.add_comm]
  · intro v p hp
    refine ⟨mvls_print_portvec_length v, ?_, ?_⟩
    · rw [mvls_print_portvec_glyph v p hp]
      by_cases hb : v.testBit p = true <;> simp [hb]
    · rw [mvls_print_portvec_glyph v p hp]
      by_cases hb : v.testBit p = true <;> simp [hb]

theorem mvls_lag_cb_rows_witness :
    ([0x007, 0x800] ++ List.replicate 22 0).length = 24 ∧
    ((mvls_print_portvec 0x800).getD 2 none = none ↔ Nat.testBit 0x800 2 = false) :=
  ⟨by decide,
   ((mvls_lag_cb_rows ([0x007, 0x800] ++ List.replicate 22 0) 0 (by decide)).2.1
      0x800 2 (by decide)).2.2⟩

/-! ### Logical addresses -/

theorem mvls_reg_unpack_fin : ∀ (port reg : Fin 32),
    (MVLS_REG port.val reg.val >>> 16) % 65536 = port.val ∧
    MVLS_REG port.val reg.val &&& 0xffff = reg.val ∧
    MVLS_REG port.val reg.val >>> 16 = port.val ∧
    MVLS_REG port.val reg.val < 2 ^ 32 := by
  decide

/-- C16: for port <= 31 and register <= 31, unpacking `MVLS_REG(port, reg)` as
`mvls_read_to` and `mvls_write` do (port = value >> 16 as `uint16_t`, register
= value & 0xffff) gives back `(port, reg)`: in direct mode the one instruction
they append addresses exactly that port and register, and in indirect mode the
command word is built from exactly that port and register. -/
theorem mvls_reg_roundtrip (port reg : Nat) (hp : port ≤ 31) (hr : reg ≤ 31)
    (dev : mvls_device) (prog : List Insn) (dst : Nat) (val : Arg) :
    ((MVLS_REG port reg >>> 16) % 65536 = port ∧ MVLS_REG port reg &&& 0xffff = reg) ∧
    mvls_read_to ⟨0⟩ prog (MVLS_REG port reg) dst =
      prog ++ [INSN Op.READ (IMM port) (IMM reg) (REG dst)] ∧
    mvls_write ⟨0⟩ prog (MVLS_REG port reg) val =
      prog ++ [INSN Op.WRITE (IMM port) (IMM reg) val] ∧
    (dev.id ≠ 0 →
      mvls_read_to dev prog (MVLS_REG port reg) dst = prog ++
        [INSN Op.WRITE (IMM dev.id) (IMM MVLS_CMD) (IMM (mvls_multi_cmd port reg false)),
         INSN Op.READ (IMM (dev.id % 256)) (IMM MVLS_CMD) (REG 0),
         INSN Op.AND (REG 0) (IMM MVLS_CMD_BUSY) (REG 0),
         INSN Op.JEQ (REG 0) (IMM MVLS_CMD_BUSY) (GOTO (prog.length + 3) (prog.length + 1)),
         INSN Op.READ (IMM dev.id) (IMM MVLS_DATA) (REG dst)] ∧
      mvls_write dev prog (MVLS_REG port reg) val = prog ++
        [INSN Op.WRITE (IMM dev.id) (IMM MVLS_DATA) val,
         INSN Op.WRITE (IMM dev.id) (IMM MVLS_CMD) (IMM (mvls_multi_cmd port reg true)),
         INSN Op.READ (IMM (dev.id % 256)) (IMM MVLS_CMD) (REG 0),
         INSN Op.AND (REG 0) (IMM MVLS_CMD_BUSY) (REG 0),
         INSN Op.JEQ (REG 0) (IMM MVLS_CMD_BUSY)
           (GOTO (prog.length + 4) (prog.length + 2))]) := by
  obtain ⟨h1, h2, -, -⟩ := mvls_reg_unpack_fin ⟨port, by omega⟩ ⟨reg, by omega⟩
  simp only at h1 h2
  refine ⟨⟨h1, h2⟩, ?_, ?_, ?_⟩
  · rw [mvls_read_to_direct _ _ _ _ rfl, h1, h2]
  · rw [mvls_write_direct _ _ _ _ rfl, h1, h2]
  · intro h
    rw [mvls_read_to_indirect _ _ _ _ h, mvls_write_indirect _ _ _ _ h, h1, h2]
    exact ⟨rfl, rfl⟩

theorem mvls_reg_roundtrip_witness :
    (MVLS_REG 0x1c 0x08 >>> 16) % 65536 = 0x1c ∧ MVLS_REG 0x1c 0x08 &&& 0xffff = 0x08 :=
  (mvls_reg_roundtrip 0x1c 0x08 (by decide) (by decide) ⟨3⟩ [] 0 (REG 0)).1

/-! ### The completion poll -/

theorem mvls_wait_append (dev : mvls_device) (prog : List Insn) (reg : Nat) :
    mvls_wait dev prog reg = mvls_read_to dev prog reg 0 ++
      [INSN Op.AND (REG 0) (IMM MVLS_CMD_BUSY) (REG 0),
       INSN Op.JEQ (REG 0) (IMM MVLS_CMD_BUSY)
         (GOTO ((mvls_read_to dev prog reg 0).length + 1) prog.length)] := by
  simp [mvls_wait, mdio_prog_push]

theorem mvls_wait_direct (dev : mvls_device) (prog : List Insn) (reg : Nat) (h : dev.id = 0) :
    mvls_wait dev prog reg = prog ++
      [INSN Op.READ (IMM ((reg >>> 16) % 65536)) (IMM (reg &&& 0xffff)) (REG 0),
       INSN Op.AND (REG 0) (IMM MVLS_CMD_BUSY) (REG 0),
       INSN Op.JEQ (REG 0) (IMM MVLS_CMD_BUSY) (GOTO (prog.length + 2) prog.length)] := by
  simp [mvls_wait, mvls_read_to_direct _ _ _ _ h, mdio_prog_push]

theorem mvls_wait_indirect (dev : mvls_device) (prog : List Insn) (reg : Nat)
    (h : dev.id ≠ 0) :
    mvls_wait dev prog reg = prog ++
      [INSN Op.WRITE (IMM dev.id) (IMM MVLS_CMD)
         (IMM (mvls_multi_cmd ((reg >>> 16) % 65536) (reg &&& 0xffff) false)),
       INSN Op.READ (IMM (dev.id % 256)) (IMM MVLS_CMD) (REG 0),
       INSN Op.AND (REG 0) (IMM MVLS_CMD_BUSY) (REG 0),
       INSN Op.JEQ (REG 0) (IMM MVLS_CMD_BUSY) (GOTO (prog.length + 3) (prog.length + 1)),
       INSN Op.READ (IMM dev.id) (IMM MVLS_DATA) (REG 0),
       INSN Op.AND (REG 0) (IMM MVLS_CMD_BUSY) (REG 0),
       INSN Op.JEQ (REG 0) (IMM MVLS_CMD_BUSY) (GOTO (prog.length + 6) prog.length)] := by
  simp [mvls_wait, mvls_read_to_indirect _ _ _ _ h, mdio_prog_push]

/-- C17: for every program of length L, device and status-register address,
`mvls_wait` keeps the first L instructions and appends a read of the status
register into working register 0 through the addressing layer (one READ in
direct mode; command write, command poll and data READ in indirect mode), an
AND of working register 0 with the busy bit 0x8000 and, last, a JEQ of working
register 0 against 0x8000 whose target is offset L and which is taken exactly
when working register 0 equals 0x8000; no capture instruction is appended. -/
theorem mvls_wait_shape (dev : mvls_device) (prog : List Insn) (reg : Nat) :
    (mvls_wait dev prog reg).take prog.length = prog ∧
    mvls_wait dev prog reg = mvls_read_to dev prog reg 0 ++
      [INSN Op.AND (REG 0) (IMM 0x8000) (REG 0),
       INSN Op.JEQ (REG 0) (IMM 0x8000)
         (GOTO ((mvls_read_to dev prog reg 0).length + 1) prog.length)] ∧
    (dev.id = 0 → mvls_wait dev prog reg = prog ++
      [INSN Op.READ (IMM ((reg >>> 16) % 65536)) (IMM (reg &&& 0xffff)) (REG 0),
       INSN Op.AND (REG 0) (IMM 0x8000) (REG 0),
       INSN Op.JEQ (REG 0) (IMM 0x8000) (GOTO (prog.length + 2) prog.length)]) ∧
    (dev.id ≠ 0 → mvls_wait dev prog reg = prog ++
      [INSN Op.WRITE (IMM dev.id) (IMM MVLS_CMD)
         (IMM (mvls_multi_cmd ((reg >>> 16) % 65536) (reg &&& 0xffff) false)),
       INSN Op.READ (IMM (dev.id % 256)) (IMM MVLS_CMD) (REG 0),
       INSN Op.AND (REG 0) (IMM 0x8000) (REG 0),
       INSN Op.JEQ (REG 0) (IMM 0x8000) (GOTO (prog.length + 3) (prog.length + 1)),
       INSN Op.READ (IMM dev.id) (IMM MVLS_DATA) (REG 0),
       INSN Op.AND (REG 0) (IMM 0x8000) (REG 0),
       INSN Op.JEQ (REG 0) (IMM 0x8000) (GOTO (prog.length + 6) prog.length)]) ∧
    (∃ src, (mvls_wait dev prog reg).getLast? =
      some (INSN Op.JEQ (REG 0) (IMM 0x8000) (GOTO src prog.length)) ∧
      src + 1 = (mvls_wait dev prog reg).length) ∧
    (∀ (rf : Nat → Nat) (src dst : Nat),
      branch_taken rf (INSN Op.JEQ (REG 0) (IMM 0x8000) (GOTO src dst)) = true ↔
        rf 0 = 0x8000) ∧
    emit_offsets ((mvls_wait dev prog reg).drop prog.length) 0 = [] := by
  have hbusy : MVLS_CMD_BUSY = 0x8000 := by decide
  refine ⟨?_, ?_, ?_, ?_, ?_, ?_, ?_⟩
  · obtain ⟨t, ht⟩ := mvls_wait_extends dev prog reg
    rw [← ht]; simp
  · rw [mvls_wait_append, hbusy]
  · intro h; rw [mvls_wait_direct _ _ _ h, hbusy]
  · intro h; rw [mvls_wait_indirect _ _ _ h, hbusy]
  · refine ⟨(mvls_read_to dev prog reg 0).length + 1, ?_, ?_⟩
    · rw [mvls_wait_append, hbusy]; simp
    · rw [mvls_wait_append]; simp
  · intro rf src dst
    simp [branch_taken, INSN, REG, IMM, Arg.eval]
  · by_cases h : dev.id = 0
    · rw [mvls_wait_direct _ _ _ h]; simp [emit_offsets, INSN]
    · rw [mvls_wait_indirect _ _ _ h]; simp [emit_offsets, INSN]

theorem mvls_wait_shape_witness :
    mvls_wait ⟨0⟩ [INSN Op.EMIT (REG 0) Arg.none Arg.none] (MVLS_REG MVLS_G1 0x0b) =
      [INSN Op.EMIT (REG 0) Arg.none Arg.none,
       INSN Op.READ (IMM 0x1b) (IMM 0x0b) (REG 0),
       INSN Op.AND (REG 0) (IMM 0x8000) (REG 0),
       INSN Op.JEQ (REG 0) (IMM 0x8000) (GOTO 3 1)] :=
  (mvls_wait_shape ⟨0⟩ [INSN Op.EMIT (REG 0) Arg.none Arg.none]
    (MVLS_REG MVLS_G1 0x0b)).2.2.1 rfl

/-! ### Programs of two indirect devices have the same shape -/

theorem skel_length {p q : List Insn} (h : p.map skel = q.map skel) : p.length = q.length := by
  have := congrArg List.length h
  simpa using this

theorem skel_push {p q : List Insn} (h : p.map skel = q.map skel) (i j : Insn)
    (hij : skel i = skel j) :
    (mdio_prog_push p i).map skel = (mdio_prog_push q j).map skel := by
  simp [mdio_prog_push, h, hij]

theorem skel_read_to (dev : mvls_device) (hd : dev.id ≠ 0) {p q : List Insn}
    (h : p.map skel = q.map skel) (reg dst : Nat) :
    (mvls_read_to dev p reg dst).map skel = (mvls_read_to ⟨1⟩ q reg dst).map skel := by
  rw [mvls_read_to_indirect dev p reg dst hd,
    mvls_read_to_indirect ⟨1⟩ q reg dst (by decide), List.map_append, List.map_append, h,
    skel_length h]
  rfl

theorem skel_write (dev : mvls_device) (hd : dev.id ≠ 0) {p q : List Insn}
    (h : p.map skel = q.map skel) (reg : Nat) (val : Arg) :
    (mvls_write dev p reg val).map skel = (mvls_write ⟨1⟩ q reg val).map skel := by
  rw [mvls_write_indirect dev p reg val hd,
    mvls_write_indirect ⟨1⟩ q reg val (by decide), List.map_append, List.map_append, h,
    skel_length h]
  rfl

theorem skel_wait (dev : mvls_device) (hd : dev.id ≠ 0) {p q : List Insn}
    (h : p.map skel = q.map skel) (reg : Nat) :
    (mvls_wait dev p reg).map skel = (mvls_wait ⟨1⟩ q reg).map skel := by
  rw [mvls_wait_indirect dev p reg hd,
    mvls_wait_indirect ⟨1⟩ q reg (by decide), List.map_append, List.map_append, h,
    skel_length h]
  rfl

theorem skel_counter_read_one (dev : mvls_device) (hd : dev.id ≠ 0) {p q : List Insn}
    (h : p.map skel = q.map skel) (counter : Nat) :
    (mvls_counter_read_one dev p counter).map skel =
      (mvls_counter_read_one ⟨1⟩ q counter).map skel := by
  unfold mvls_counter_read_one mvls_read
  exact skel_push (skel_read_to dev hd (skel_push (skel_read_to dev hd
    (skel_wait dev hd (skel_write dev hd h _ _) _) _ _) _ _ rfl) _ _) _ _ rfl

theorem skel_counter_prog (fam : mvls_famliy) (dev : mvls_device) (hd : dev.id ≠ 0) :
    (mvls_counter_exec_prog fam dev).map skel = (mvls_counter_exec_prog fam ⟨1⟩).map skel := by
  unfold mvls_counter_exec_prog
  simp only
  have h0 : ([] : List Insn).map skel = ([] : List Insn).map skel := rfl
  have h1 := skel_push (skel_wait dev hd h0 (MVLS_REG MVLS_G1 0x1d))
    (INSN Op.ADD (IMM ((1 <<< 15) ||| (5 <<< 12) ||| (counter_base_shift fam).1)) (IMM 0) (REG 1))
    (INSN Op.ADD (IMM ((1 <<< 15) ||| (5 <<< 12) ||| (counter_base_shift fam).1)) (IMM 0) (REG 1))
    rfl
  have h2 := skel_push
    (skel_counter_read_one dev hd (skel_counter_read_one dev hd (skel_counter_read_one dev hd
      (skel_counter_read_one dev hd (skel_counter_read_one dev hd (skel_counter_read_one dev hd
        (skel_wait dev hd (skel_write dev hd h1 (MVLS_REG MVLS_G1 0x1d) (REG 1))
          (MVLS_REG MVLS_G1 0x1d)) 0x04) 0x06) 0x07) 0x10) 0x13) 0x12)
    (INSN Op.ADD (REG 1) (IMM (counter_base_shift fam).2) (REG 1))
    (INSN Op.ADD (REG 1) (IMM (counter_base_shift fam).2) (REG 1)) rfl
  refine skel_push h2 _ _ ?_
  show (Op.JNE, GOTO _ _) = (Op.JNE, GOTO _ _)
  rw [skel_length h2, skel_length h1]

theorem skel_emit_offsets : ∀ (p q : List Insn) (off : Nat), p.map skel = q.map skel →
    emit_offsets p off = emit_offsets q off := by
  intro p
  induction p with
  | nil =>
    intro q off h
    cases q with
    | nil => rfl
    | cons b q => simp at h
  | cons a p ih =>
    intro q off h
    cases q with
    | nil => simp at h
    | cons b q =>
      simp only [List.map_cons, List.cons.injEq] at h
      have hop : a.op = b.op := congrArg Prod.fst h.1
      simp only [emit_offsets, hop, ih q (off + 1) h.2]

theorem skel_branches (op : Op) : ∀ (p q : List Insn) (off : Nat), p.map skel = q.map skel →
    branches op p off = branches op q off := by
  intro p
  induction p with
  | nil =>
    intro q off h
    cases q with
    | nil => rfl
    | cons b q => simp at h
  | cons a p ih =>
    intro q off h
    cases q with
    | nil => simp at h
    | cons b q =>
      simp only [List.map_cons, List.cons.injEq] at h
      have hop : a.op = b.op := congrArg Prod.fst h.1
      have harg : a.arg2 = b.arg2 := congrArg Prod.snd h.1
      simp only [branches, hop, harg, ih q (off + 1) h.2]

theorem skel_reg_writers (r : Nat) : ∀ (p q : List Insn) (off : Nat), p.map skel = q.map skel →
    reg_writers r p off = reg_writers r q off := by
  intro p
  induction p with
  | nil =>
    intro q off h
    cases q with
    | nil => rfl
    | cons b q => simp at h
  | cons a p ih =>
    intro q off h
    cases q with
    | nil => simp at h
    | cons b q =>
      simp only [List.map_cons, List.cons.injEq] at h
      have hop : a.op = b.op := congrArg Prod.fst h.1
      have harg : a.arg2 = b.arg2 := congrArg Prod.snd h.1
      have hd : dest_reg a = dest_reg b := by simp only [dest_reg, hop, harg]
      simp only [reg_writers, hd, ih q (off + 1) h.2]

theorem device_cases (dev : mvls_device) : dev = ⟨0⟩ ∨ dev.id ≠ 0 := by
  cases dev with
  | mk id =>
    by_cases h : id = 0
    · left; rw [h]
    · right; exact h

/-! ### The counter program -/

theorem counter_loop_offset_eq (dev : mvls_device) (hd : dev.id ≠ 0) :
    counter_loop_offset dev = counter_loop_offset ⟨1⟩ := by
  unfold counter_loop_offset
  exact skel_length (skel_push (skel_wait dev hd rfl _) _ _ rfl)

/-- Shape of the counter program, as a property of what the observers see. -/
theorem counter_shape_direct (fam : mvls_famliy) :
    (emit_offsets (mvls_counter_exec_prog fam ⟨0⟩) 0).length = 12 ∧
    (∀ e ∈ emit_offsets (mvls_counter_exec_prog fam ⟨0⟩) 0,
      counter_loop_offset ⟨0⟩ ≤ e ∧ e + 1 < (mvls_counter_exec_prog fam ⟨0⟩).length) ∧
    branches Op.JNE (mvls_counter_exec_prog fam ⟨0⟩) 0 =
      [((mvls_counter_exec_prog fam ⟨0⟩).length - 1,
        (mvls_counter_exec_prog fam ⟨0⟩).length - 1, counter_loop_offset ⟨0⟩)] ∧
    (∀ b ∈ branches Op.JEQ (mvls_counter_exec_prog fam ⟨0⟩) 0,
      b.2.1 = b.1 ∧ b.2.2 ≤ b.1 ∧
      ∀ e ∈ emit_offsets (mvls_counter_exec_prog fam ⟨0⟩) 0, ¬ (b.2.2 ≤ e ∧ e ≤ b.1)) ∧
    reg_writers 1 (mvls_counter_exec_prog fam ⟨0⟩) 0 =
      [counter_loop_offset ⟨0⟩ - 1, (mvls_counter_exec_prog fam ⟨0⟩).length - 2] := by
  cases fam <;> decide!

theorem counter_shape_one (fam : mvls_famliy) :
    (emit_offsets (mvls_counter_exec_prog fam ⟨1⟩) 0).length = 12 ∧
    (∀ e ∈ emit_offsets (mvls_counter_exec_prog fam ⟨1⟩) 0,
      counter_loop_offset ⟨1⟩ ≤ e ∧ e + 1 < (mvls_counter_exec_prog fam ⟨1⟩).length) ∧
    branches Op.JNE (mvls_counter_exec_prog fam ⟨1⟩) 0 =
      [((mvls_counter_exec_prog fam ⟨1⟩).length - 1,
        (mvls_counter_exec_prog fam ⟨1⟩).length - 1, counter_loop_offset ⟨1⟩)] ∧
    (∀ b ∈ branches Op.JEQ (mvls_counter_exec_prog fam ⟨1⟩) 0,
      b.2.1 = b.1 ∧ b.2.2 ≤ b.1 ∧
      ∀ e ∈ emit_offsets (mvls_counter_exec_prog fam ⟨1⟩) 0, ¬ (b.2.2 ≤ e ∧ e ≤ b.1)) ∧
    reg_writers 1 (mvls_counter_exec_prog fam ⟨1⟩) 0 =
      [counter_loop_offset ⟨1⟩ - 1, (mvls_counter_exec_prog fam ⟨1⟩).length - 2] := by
  cases fam <;> decide!

theorem counter_shape (fam : mvls_famliy) (dev : mvls_device) :
    (emit_offsets (mvls_counter_exec_prog fam dev) 0).length = 12 ∧
    (∀ e ∈ emit_offsets (mvls_counter_exec_prog fam dev) 0,
      counter_loop_offset dev ≤ e ∧ e + 1 < (mvls_counter_exec_prog fam dev).length) ∧
    branches Op.JNE (mvls_counter_exec_prog fam dev) 0 =
      [((mvls_counter_exec_prog fam dev).length - 1,
        (mvls_counter_exec_prog fam dev).length - 1, counter_loop_offset dev)] ∧
    (∀ b ∈ branches Op.JEQ (mvls_counter_exec_prog fam dev) 0,
      b.2.1 = b.1 ∧ b.2.2 ≤ b.1 ∧
      ∀ e ∈ emit_offsets (mvls_counter_exec_prog fam dev) 0, ¬ (b.2.2 ≤ e ∧ e ≤ b.1)) ∧
    reg_writers 1 (mvls_counter_exec_prog fam dev) 0 =
      [counter_loop_offset dev - 1, (mvls_counter_exec_prog fam dev).length - 2] := by
  rcases device_cases dev with h | h
  · subst h; exact counter_shape_direct fam
  · have hs := skel_counter_prog fam dev h
    rw [skel_emit_offsets _ _ 0 hs, skel_branches Op.JNE _ _ 0 hs, skel_branches Op.JEQ _ _ 0 hs,
      skel_reg_writers 1 _ _ 0 hs, skel_length hs, counter_loop_offset_eq dev h]
    exact counter_shape_one fam

/-! ### The LAG program -/

theorem lag_prog_eq (engine : Engine) (dev : mvls_device) :
    (mvls_lag_exec engine dev ["lag"]).prog =
      (List.range 8).foldl (mvls_lag_exec_mask dev)
        ((List.range 16).foldl (mvls_lag_exec_lag dev) []) ∧
    (mvls_lag_exec engine dev ["lag"]).submitted = true := by
  unfold mvls_lag_exec
  simp only [argv_pop]
  split <;> exact ⟨rfl, rfl⟩

theorem skel_lag_step (dev : mvls_device) (hd : dev.id ≠ 0) {p q : List Insn}
    (h : p.map skel = q.map skel) (i : Nat) :
    (mvls_lag_exec_lag dev p i).map skel = (mvls_lag_exec_lag ⟨1⟩ q i).map skel := by
  unfold mvls_lag_exec_lag mvls_read
  exact skel_push (skel_read_to dev hd (skel_write dev hd h _ _) _ _) _ _ rfl

theorem skel_mask_step (dev : mvls_device) (hd : dev.id ≠ 0) {p q : List Insn}
    (h : p.map skel = q.map skel) (i : Nat) :
    (mvls_lag_exec_mask dev p i).map skel = (mvls_lag_exec_mask ⟨1⟩ q i).map skel := by
  unfold mvls_lag_exec_mask mvls_read
  exact skel_push (skel_read_to dev hd (skel_write dev hd
    (skel_push (skel_push (skel_read_to dev hd h _ _) _ _ rfl) _ _ rfl) _ _) _ _) _ _ rfl

theorem skel_foldl (f g : List Insn → Nat → List Insn)
    (hstep : ∀ (p q : List Insn) (i : Nat), p.map skel = q.map skel →
      (f p i).map skel = (g q i).map skel) :
    ∀ (l : List Nat) (p q : List Insn), p.map skel = q.map skel →
      (l.foldl f p).map skel = (l.foldl g q).map skel := by
  intro l
  induction l with
  | nil => intro p q h; exact h
  | cons i l ih => intro p q h; exact ih _ _ (hstep p q i h)

theorem skel_lag_prog (engine : Engine) (dev : mvls_device) (hd : dev.id ≠ 0) :
    (mvls_lag_exec engine dev ["lag"]).prog.map skel =
      (mvls_lag_exec (fun _ => ([], 0)) ⟨1⟩ ["lag"]).prog.map skel := by
  rw [(lag_prog_eq engine dev).1, (lag_prog_eq (fun _ => ([], 0)) ⟨1⟩).1]
  exact skel_foldl _ _ (fun p q i h => skel_mask_step dev hd h i) _ _ _
    (skel_foldl _ _ (fun p q i h => skel_lag_step dev hd h i) _ _ _ rfl)

theorem lag_shape_direct :
    (emit_offsets (mvls_lag_exec (fun _ => ([], 0)) ⟨0⟩ ["lag"]).prog 0).length = 24 ∧
    ∀ op, op = Op.JEQ ∨ op = Op.JNE →
      ∀ b ∈ branches op (mvls_lag_exec (fun _ => ([], 0)) ⟨0⟩ ["lag"]).prog 0,
        b.2.1 = b.1 ∧ b.2.2 ≤ b.1 ∧
        ∀ e ∈ emit_offsets (mvls_lag_exec (fun _ => ([], 0)) ⟨0⟩ ["lag"]).prog 0,
          ¬ (b.2.2 ≤ e ∧ e ≤ b.1) := by
  refine ⟨by decide!, ?_⟩
  rintro op (h | h) <;> subst h <;> decide!

theorem lag_shape_one :
    (emit_offsets (mvls_lag_exec (fun _ => ([], 0)) ⟨1⟩ ["lag"]).prog 0).length = 24 ∧
    ∀ op, op = Op.JEQ ∨ op = Op.JNE →
      ∀ b ∈ branches op (mvls_lag_exec (fun _ => ([], 0)) ⟨1⟩ ["lag"]).prog 0,
        b.2.1 = b.1 ∧ b.2.2 ≤ b.1 ∧
        ∀ e ∈ emit_offsets (mvls_lag_exec (fun _ => ([], 0)) ⟨1⟩ ["lag"]).prog 0,
          ¬ (b.2.2 ≤ e ∧ e ≤ b.1) := by
  refine ⟨by decide!, ?_⟩
  rintro op (h | h) <;> subst h <;> decide!

theorem lag_shape (engine : Engine) (dev : mvls_device) :
    (emit_offsets (mvls_lag_exec engine dev ["lag"]).prog 0).length = 24 ∧
    ∀ op, op = Op.JEQ ∨ op = Op.JNE →
      ∀ b ∈ branches op (mvls_lag_exec engine dev ["lag"]).prog 0,
        b.2.1 = b.1 ∧ b.2.2 ≤ b.1 ∧
        ∀ e ∈ emit_offsets (mvls_lag_exec engine dev ["lag"]).prog 0,
          ¬ (b.2.2 ≤ e ∧ e ≤ b.1) := by
  rcases device_cases dev with h | h
  · subst h
    rw [(lag_prog_eq engine ⟨0⟩).1, ← (lag_prog_eq (fun _ => ([], 0)) ⟨0⟩).1]
    exact lag_shape_direct
  · have hs := skel_lag_prog engine dev h
    rw [skel_emit_offsets _ _ 0 hs]
    refine ⟨lag_shape_one.1, ?_⟩
    intro op hop
    rw [skel_branches op _ _ 0 hs]
    exact lag_shape_one.2 op hop

/-! ### No capture in the ATU programs -/

theorem emit_offsets_append (p q : List Insn) (off : Nat) :
    emit_offsets (p ++ q) off = emit_offsets p off ++ emit_offsets q (off + p.length) := by
  induction p generalizing off with
  | nil => simp [emit_offsets]
  | cons i rest ih =>
    have e : off + 1 + rest.length = off + (rest.length + 1) := by omega
    rw [List.cons_append]
    simp only [emit_offsets, List.length_cons]
    split
    · rw [ih, e]; rfl
    · rw [ih, e]

theorem no_emit_push (p : List Insn) (off : Nat) (i : Insn) (hi : i.op ≠ Op.EMIT)
    (h : emit_offsets p off = []) : emit_offsets (mdio_prog_push p i) off = [] := by
  simp [mdio_prog_push, emit_offsets_append, h, emit_offsets, hi]

theorem no_emit_read_to (dev : mvls_device) (p : List Insn) (off reg dst : Nat)
    (h : emit_offsets p off = []) : emit_offsets (mvls_read_to dev p reg dst) off = [] := by
  by_cases hd : dev.id = 0
  · rw [mvls_read_to_direct _ _ _ _ hd]; simp [emit_offsets_append, h, emit_offsets, INSN]
  · rw [mvls_read_to_indirect _ _ _ _ hd]; simp [emit_offsets_append, h, emit_offsets, INSN]

theorem no_emit_write (dev : mvls_device) (p : List Insn) (off reg : Nat) (val : Arg)
    (h : emit_offsets p off = []) : emit_offsets (mvls_write dev p reg val) off = [] := by
  by_cases hd : dev.id = 0
  · rw [mvls_write_direct _ _ _ _ hd]; simp [emit_offsets_append, h, emit_offsets, INSN]
  · rw [mvls_write_indirect _ _ _ _ hd]; simp [emit_offsets_append, h, emit_offsets, INSN]

theorem no_emit_wait (dev : mvls_device) (p : List Insn) (off reg : Nat)
    (h : emit_offsets p off = []) : emit_offsets (mvls_wait dev p reg) off = [] := by
  unfold mvls_wait
  exact no_emit_push _ _ _ (by simp [INSN]) (no_emit_push _ _ _ (by simp [INSN])
    (no_emit_read_to dev p off reg 0 h))

theorem no_emit_atu_exec_exec (engine : Engine) (dev : mvls_device) (p : List Insn)
    (op : Nat) (diag : List String) (h : emit_offsets p 0 = []) :
    emit_offsets (mvls_atu_exec_exec engine dev p op diag).prog 0 = [] := by
  rw [(atu_exec_exec_fields engine dev p op diag).2.2]
  exact no_emit_wait _ _ _ _ (no_emit_write _ _ _ _ _ (no_emit_push _ _ _ (by simp [INSN])
    (no_emit_push _ _ _ (by simp [INSN]) (no_emit_read_to _ _ _ _ _ (no_emit_wait _ _ _ _ h)))))

theorem no_emit_atu_read_stat (engine : Engine) (dev : mvls_device) (p : List Insn)
    (op : Nat) (argv : List String) (h : emit_offsets p 0 = []) :
    emit_offsets (mvls_atu_exec_read_stat engine dev p op argv).prog 0 = [] := by
  unfold mvls_atu_exec_read_stat
  split
  · exact no_emit_atu_exec_exec _ _ _ _ _ h
  · split
    · exact no_emit_atu_exec_exec _ _ _ _ _ h
    · exact no_emit_atu_exec_exec _ _ _ _ _ h

theorem no_emit_atu (engine : Engine) (dev : mvls_device) (argv : List String) :
    emit_offsets (mvls_atu_exec engine dev argv).prog 0 = [] := by
  unfold mvls_atu_exec
  simp only
  split
  · rfl
  · split
    · split
      · exact no_emit_atu_exec_exec _ _ _ _ _ rfl
      · split
        · exact no_emit_atu_read_stat _ _ _ _ _ rfl
        · split
          · rfl
          · exact no_emit_atu_read_stat _ _ _ _ _
              (no_emit_write _ _ _ _ _ (no_emit_push _ _ _ (by simp [INSN])
                (no_emit_push _ _ _ (by simp [INSN]) (no_emit_read_to _ _ _ _ _ rfl))))
    · rfl

/-! ### Claims about the counter program -/

theorem counter_exec_prog_eq (engine : Engine) (polls : Nat → Engine) (fuel : Nat)
    (dev : mvls_device) (argv : List String)
    (h : argv = ["counter"] ∨ argv = ["counter", "repeat"]) :
    (mvls_counter_exec engine polls fuel dev argv).prog =
      mvls_counter_exec_prog (mvls_get_family engine dev) dev := by
  rcases h with h | h <;> subst h
  · unfold mvls_counter_exec
    simp only [argv_pop]
    rw [if_neg (by simp)]
    split
    · rfl
    · split <;> rfl
  · unfold mvls_counter_exec
    simp only [argv_pop]
    rw [if_neg (by simp)]
    split
    · rfl
    · split <;> rfl

theorem counter_prog_compose (fam : mvls_famliy) (dev : mvls_device) :
    mvls_counter_exec_prog fam dev =
      mdio_prog_push
        (mdio_prog_push
          (mvls_counter_read_one dev (mvls_counter_read_one dev (mvls_counter_read_one dev
            (mvls_counter_read_one dev (mvls_counter_read_one dev (mvls_counter_read_one dev
              (mvls_wait dev
                (mvls_write dev
                  (mdio_prog_push (mvls_wait dev [] (MVLS_REG MVLS_G1 0x1d))
                    (INSN Op.ADD
                      (IMM (0x8000 ||| (5 <<< 12) ||| (counter_base_shift fam).1))
                      (IMM 0) (REG 1)))
                  (MVLS_REG MVLS_G1 0x1d) (REG 1))
                (MVLS_REG MVLS_G1 0x1d))
              0x04) 0x06) 0x07) 0x10) 0x13) 0x12)
          (INSN Op.ADD (REG 1) (IMM (counter_base_shift fam).2) (REG 1)))
        (INSN Op.JNE (REG 1)
          (IMM (0x8000 ||| (5 <<< 12) |||
            ((counter_base_shift fam).1 + (counter_base_shift fam).2 * 11)))
          (GOTO ((mvls_counter_exec_prog fam dev).length - 1) (counter_loop_offset dev))) := by
  have hlen : ∀ (p : List Insn) (i : Insn), (mdio_prog_push p i).length - 1 = p.length := by
    intro p i; simp [mdio_prog_push]
  have hloop : ∀ (i : Insn), (mdio_prog_push (mvls_wait dev [] (MVLS_REG MVLS_G1 0x1d)) i).length =
      counter_loop_offset dev := by
    intro i; simp [counter_loop_offset, mdio_prog_push]
  unfold mvls_counter_exec_prog
  simp only
  rw [hlen, hloop]
  rfl

theorem counter_add_iterate (shift : Nat) (k : Nat) :
    ∀ rf : Nat → Nat,
      ((fun r => alu_step r (INSN Op.ADD (REG 1) (IMM shift) (REG 1)))^[k] rf) 1 =
        rf 1 + k * shift := by
  induction k with
  | zero => intro rf; simp
  | succ k ih =>
    intro rf
    rw [Function.iterate_succ_apply, ih]
    simp [alu_step, INSN, REG, IMM, Arg.eval]
    ring

/-- C14: in the counter program, base and stride are 32 and 32 for Agate,
Peridot and Amethyst and 0 and 1 for every other family; working register 1
is initialised to `0x8000 | (5 << 12) | base` before the loop, written to
(Global1, 0x1d) at the head of each pass, increased by stride at the end of
each pass, and the closing JNE jumps back to the loop offset while it differs
from `0x8000 | (5 << 12) | (base + 11 * stride)`; after `k` passes it holds
`0xd000 + base + k * stride`, which equals the exit value exactly for
`k = 11`. -/
theorem counter_loop_register (fam : mvls_famliy) (dev : mvls_device) :
    (counter_base_shift fam =
      if fam = mvls_famliy.FAM_AGATE ∨ fam = mvls_famliy.FAM_PERIDOT ∨
        fam = mvls_famliy.FAM_AMETHYST then (32, 32) else (0, 1)) ∧
    mvls_counter_exec_prog fam dev =
      mdio_prog_push
        (mdio_prog_push
          (mvls_counter_read_one dev (mvls_counter_read_one dev (mvls_counter_read_one dev
            (mvls_counter_read_one dev (mvls_counter_read_one dev (mvls_counter_read_one dev
              (mvls_wait dev
                (mvls_write dev
                  (mdio_prog_push (mvls_wait dev [] (MVLS_REG MVLS_G1 0x1d))
                    (INSN Op.ADD
                      (IMM (0x8000 ||| (5 <<< 12) ||| (counter_base_shift fam).1))
                      (IMM 0) (REG 1)))
                  (MVLS_REG MVLS_G1 0x1d) (REG 1))
                (MVLS_REG MVLS_G1 0x1d))
              0x04) 0x06) 0x07) 0x10) 0x13) 0x12)
          (INSN Op.ADD (REG 1) (IMM (counter_base_shift fam).2) (REG 1)))
        (INSN Op.JNE (REG 1)
          (IMM (0x8000 ||| (5 <<< 12) |||
            ((counter_base_shift fam).1 + (counter_base_shift fam).2 * 11)))
          (GOTO ((mvls_counter_exec_prog fam dev).length - 1) (counter_loop_offset dev))) ∧
    (∀ rf : Nat → Nat,
      alu_step rf (INSN Op.ADD
        (IMM (0x8000 ||| (5 <<< 12) ||| (counter_base_shift fam).1)) (IMM 0) (REG 1)) 1 =
        0xd000 + (counter_base_shift fam).1) ∧
    (∀ (rf : Nat → Nat) (k : Nat),
      ((fun r => alu_step r
        (INSN Op.ADD (REG 1) (IMM (counter_base_shift fam).2) (REG 1)))^[k] rf) 1 =
        rf 1 + k * (counter_base_shift fam).2) ∧
    (∀ (rf : Nat → Nat) (k : Nat),
      ((fun r => alu_step r
        (INSN Op.ADD (REG 1) (IMM (counter_base_shift fam).2) (REG 1)))^[k]
          (alu_step rf (INSN Op.ADD
            (IMM (0x8000 ||| (5 <<< 12) ||| (counter_base_shift fam).1)) (IMM 0) (REG 1)))) 1 =
        0xd000 + (counter_base_shift fam).1 + k * (counter_base_shift fam).2) ∧
    (∀ (rf : Nat → Nat) (src dst : Nat),
      branch_taken rf (INSN Op.JNE (REG 1)
        (IMM (0x8000 ||| (5 <<< 12) |||
          ((counter_base_shift fam).1 + (counter_base_shift fam).2 * 11)))
        (GOTO src dst)) = true ↔
      rf 1 ≠ 0x8000 ||| (5 <<< 12) |||
        ((counter_base_shift fam).1 + (counter_base_shift fam).2 * 11)) ∧
    (∀ k : Nat,
      0xd000 + (counter_base_shift fam).1 + k * (counter_base_shift fam).2 =
        0x8000 ||| (5 <<< 12) |||
          ((counter_base_shift fam).1 + (counter_base_shift fam).2 * 11) ↔ k = 11) ∧
    (∀ engine polls fuel,
      (mvls_counter_exec engine polls fuel dev ["counter"]).prog =
        mvls_counter_exec_prog (mvls_get_family engine dev) dev ∧
      (mvls_counter_exec engine polls fuel dev ["counter", "repeat"]).prog =
        mvls_counter_exec_prog (mvls_get_family engine dev) dev) := by
  have hinit : ∀ rf : Nat → Nat,
      alu_step rf (INSN Op.ADD
        (IMM (0x8000 ||| (5 <<< 12) ||| (counter_base_shift fam).1)) (IMM 0) (REG 1)) 1 =
        0xd000 + (counter_base_shift fam).1 := by
    intro rf
    cases fam <;> simp [alu_step, INSN, REG, IMM, Arg.eval, counter_base_shift]
  refine ⟨?_, counter_prog_compose fam dev, hinit, ?_, ?_, ?_, ?_, ?_⟩
  · cases fam <;> decide
  · intro rf k
    exact counter_add_iterate _ k rf
  · intro rf k
    rw [counter_add_iterate, hinit]
  · intro rf src dst
    simp [branch_taken, INSN, REG, IMM, Arg.eval]
  · intro k
    cases fam <;> simp [counter_base_shift] <;> omega
  · intro engine polls fuel
    exact ⟨counter_exec_prog_eq engine polls fuel dev _ (Or.inl rfl),
      counter_exec_prog_eq engine polls fuel dev _ (Or.inr rfl)⟩

theorem counter_loop_register_witness :
    counter_base_shift mvls_famliy.FAM_AGATE = (32, 32) ∧
    (0xd000 + (counter_base_shift mvls_famliy.FAM_AGATE).1 +
        11 * (counter_base_shift mvls_famliy.FAM_AGATE).2 =
      0x8000 ||| (5 <<< 12) ||| ((counter_base_shift mvls_famliy.FAM_AGATE).1 +
        (counter_base_shift mvls_famliy.FAM_AGATE).2 * 11) ↔ 11 = 11) :=
  ⟨(counter_loop_register mvls_famliy.FAM_AGATE ⟨0⟩).1,
   (counter_loop_register mvls_famliy.FAM_AGATE ⟨0⟩).2.2.2.2.2.2.1 11⟩

/-- C18: for every device identity, the `lag` program contains exactly
16 + 8 = 24 capture instructions and no branch spans one of them (every branch
is recorded at its own offset, targets an earlier offset, and no capture lies
between target and branch); the program built by `mvls_atu_exec` contains no
capture instruction, for every argument list; the counter program contains
exactly 12 capture instructions, all inside the outer loop body (between the
loop offset and the closing JNE, the only JNE) and none between the retry
target and the branch of a busy-wait JEQ, so that 11 passes yield
11 * 6 * 2 = 132 values. -/
theorem capture_counts (engine : Engine) (dev : mvls_device) (fam : mvls_famliy)
    (argv : List String) :
    ((emit_offsets (mvls_lag_exec engine dev ["lag"]).prog 0).length = 16 + 8 ∧
      ∀ op, op = Op.JEQ ∨ op = Op.JNE →
        ∀ b ∈ branches op (mvls_lag_exec engine dev ["lag"]).prog 0,
          b.2.1 = b.1 ∧ b.2.2 ≤ b.1 ∧
          ∀ e ∈ emit_offsets (mvls_lag_exec engine dev ["lag"]).prog 0,
            ¬ (b.2.2 ≤ e ∧ e ≤ b.1)) ∧
    emit_offsets (mvls_atu_exec engine dev argv).prog 0 = [] ∧
    ((emit_offsets (mvls_counter_exec_prog fam dev) 0).length = 12 ∧
      11 * (emit_offsets (mvls_counter_exec_prog fam dev) 0).length = 11 * 6 * 2 ∧
      branches Op.JNE (mvls_counter_exec_prog fam dev) 0 =
        [((mvls_counter_exec_prog fam dev).length - 1,
          (mvls_counter_exec_prog fam dev).length - 1, counter_loop_offset dev)] ∧
      (∀ e ∈ emit_offsets (mvls_counter_exec_prog fam dev) 0,
        counter_loop_offset dev ≤ e ∧ e < (mvls_counter_exec_prog fam dev).length - 1) ∧
      ∀ b ∈ branches Op.JEQ (mvls_counter_exec_prog fam dev) 0,
        b.2.1 = b.1 ∧ b.2.2 ≤ b.1 ∧
        ∀ e ∈ emit_offsets (mvls_counter_exec_prog fam dev) 0, ¬ (b.2.2 ≤ e ∧ e ≤ b.1)) := by
  obtain ⟨h12, hin, hjne, hjeq, -⟩ := counter_shape fam dev
  refine ⟨lag_shape engine dev, no_emit_atu engine dev argv, h12, ?_, hjne, ?_, hjeq⟩
  · rw [h12]
  · intro e he
    have := hin e he
    omega

theorem capture_counts_witness :
    emit_offsets (mvls_counter_exec_prog mvls_famliy.FAM_OPAL ⟨0⟩) 0 =
      [13, 15, 21, 23, 29, 31, 37, 39, 45, 47, 53, 55] ∧
    (counter_loop_offset ⟨0⟩ ≤ 13 ∧
      13 < (mvls_counter_exec_prog mvls_famliy.FAM_OPAL ⟨0⟩).length - 1) :=
  ⟨by decide!,
   (capture_counts (fun _ => ([], 0)) ⟨0⟩ mvls_famliy.FAM_OPAL []).2.2.2.2.2.1 13 (by decide!)⟩

/-! ### Working register 1 in the counter program -/

theorem frame_push (p : List Insn) (i : Insn) (hi : dest_reg i = none ∨ dest_reg i = some 0) :
    ∃ t, mdio_prog_push p i = p ++ t ∧ ∀ j ∈ t, dest_reg j = none ∨ dest_reg j = some 0 :=
  ⟨[i], rfl, by simpa using hi⟩

theorem frame_wait_cmd (p : List Insn) (id : Nat) :
    ∃ t, mvls_wait_cmd p id = p ++ t ∧ ∀ j ∈ t, dest_reg j = none ∨ dest_reg j = some 0 :=
  ⟨_, mvls_wait_cmd_append p id, by simp [dest_reg, INSN, REG]⟩

theorem frame_read (dev : mvls_device) (p : List Insn) (reg : Nat) :
    ∃ t, mvls_read dev p reg = p ++ t ∧ ∀ j ∈ t, dest_reg j = none ∨ dest_reg j = some 0 := by
  unfold mvls_read
  by_cases h : dev.id = 0
  · exact ⟨_, mvls_read_to_direct dev p reg 0 h, by simp [dest_reg, INSN, REG]⟩
  · exact ⟨_, mvls_read_to_indirect dev p reg 0 h, by simp [dest_reg, INSN, REG]⟩

theorem frame_write (dev : mvls_device) (p : List Insn) (reg : Nat) (val : Arg) :
    ∃ t, mvls_write dev p reg val = p ++ t ∧
      ∀ j ∈ t, dest_reg j = none ∨ dest_reg j = some 0 := by
  by_cases h : dev.id = 0
  · exact ⟨_, mvls_write_direct dev p reg val h, by simp [dest_reg, INSN, REG]⟩
  · exact ⟨_, mvls_write_indirect dev p reg val h, by simp [dest_reg, INSN, REG]⟩

theorem frame_wait (dev : mvls_device) (p : List Insn) (reg : Nat) :
    ∃ t, mvls_wait dev p reg = p ++ t ∧ ∀ j ∈ t, dest_reg j = none ∨ dest_reg j = some 0 := by
  by_cases h : dev.id = 0
  · exact ⟨_, mvls_wait_direct dev p reg h, by simp [dest_reg, INSN, REG]⟩
  · exact ⟨_, mvls_wait_indirect dev p reg h, by simp [dest_reg, INSN, REG]⟩

theorem frame_trans {p q r : List Insn}
    (h1 : ∃ t, q = p ++ t ∧ ∀ j ∈ t, dest_reg j = none ∨ dest_reg j = some 0)
    (h2 : ∃ t, r = q ++ t ∧ ∀ j ∈ t, dest_reg j = none ∨ dest_reg j = some 0) :
    ∃ t, r = p ++ t ∧ ∀ j ∈ t, dest_reg j = none ∨ dest_reg j = some 0 := by
  obtain ⟨t1, e1, f1⟩ := h1
  obtain ⟨t2, e2, f2⟩ := h2
  refine ⟨t1 ++ t2, by rw [e2, e1, List.append_assoc], ?_⟩
  intro j hj
  rcases List.mem_append.1 hj with h | h
  · exact f1 j h
  · exact f2 j h

theorem frame_counter_read_one (dev : mvls_device) (p : List Insn) (counter : Nat) :
    ∃ t, mvls_counter_read_one dev p counter = p ++ t ∧
      ∀ j ∈ t, dest_reg j = none ∨ dest_reg j = some 0 := by
  unfold mvls_counter_read_one
  exact frame_trans (frame_trans (frame_trans (frame_trans (frame_trans
    (frame_write dev p _ _) (frame_wait dev _ _)) (frame_read dev _ _))
    (frame_push _ (INSN Op.EMIT (REG 0) Arg.none Arg.none) (Or.inl rfl)))
    (frame_read dev _ _)) (frame_push _ (INSN Op.EMIT (REG 0) Arg.none Arg.none) (Or.inl rfl))

theorem mvls_counter_read_one_extends (dev : mvls_device) (p : List Insn) (counter : Nat) :
    p <+: mvls_counter_read_one dev p counter := by
  obtain ⟨t, ht, -⟩ := frame_counter_read_one dev p counter
  exact ⟨t, ht.symm⟩

theorem push_push_append (p : List Insn) (i j : Insn) :
    mdio_prog_push (mdio_prog_push p i) j = p ++ [i, j] := by
  simp [mdio_prog_push]

/-- C20: in the counter program, for both addressing modes and every family,
working register 1 is written by exactly two instructions: the initialising
ADD just before the loop offset and the ADD of stride just before the closing
branch; the closing JNE, the only JNE, targets the loop offset, the offset just
after the initialisation; and every instruction appended by `mvls_write`,
`mvls_wait`, `mvls_read`, `mvls_wait_cmd` and `mvls_counter_read_one` writes
working register 0 or no register. -/
theorem counter_loop_register_frame (fam : mvls_famliy) (dev : mvls_device) :
    reg_writers 1 (mvls_counter_exec_prog fam dev) 0 =
      [counter_loop_offset dev - 1, (mvls_counter_exec_prog fam dev).length - 2] ∧
    branches Op.JNE (mvls_counter_exec_prog fam dev) 0 =
      [((mvls_counter_exec_prog fam dev).length - 1,
        (mvls_counter_exec_prog fam dev).length - 1, counter_loop_offset dev)] ∧
    (∃ pre post, mvls_counter_exec_prog fam dev =
      pre ++ INSN Op.ADD (IMM (0x8000 ||| (5 <<< 12) ||| (counter_base_shift fam).1))
        (IMM 0) (REG 1) :: post ∧ pre.length + 1 = counter_loop_offset dev) ∧
    (∃ body jne, mvls_counter_exec_prog fam dev =
      body ++ [INSN Op.ADD (REG 1) (IMM (counter_base_shift fam).2) (REG 1), jne]) ∧
    (∀ (p : List Insn) (reg counter id : Nat) (val : Arg),
      (∃ t, mvls_write dev p reg val = p ++ t ∧
        ∀ j ∈ t, dest_reg j = none ∨ dest_reg j = some 0) ∧
      (∃ t, mvls_wait dev p reg = p ++ t ∧
        ∀ j ∈ t, dest_reg j = none ∨ dest_reg j = some 0) ∧
      (∃ t, mvls_read dev p reg = p ++ t ∧
        ∀ j ∈ t, dest_reg j = none ∨ dest_reg j = some 0) ∧
      (∃ t, mvls_wait_cmd p id = p ++ t ∧
        ∀ j ∈ t, dest_reg j = none ∨ dest_reg j = some 0) ∧
      (∃ t, mvls_counter_read_one dev p counter = p ++ t ∧
        ∀ j ∈ t, dest_reg j = none ∨ dest_reg j = some 0)) := by
  obtain ⟨-, -, hjne, -, hw⟩ := counter_shape fam dev
  refine ⟨hw, hjne, ?_, ?_, ?_⟩
  · have hpre : mdio_prog_push (mvls_wait dev [] (MVLS_REG MVLS_G1 0x1d))
        (INSN Op.ADD (IMM (0x8000 ||| (5 <<< 12) ||| (counter_base_shift fam).1))
          (IMM 0) (REG 1)) <+: mvls_counter_exec_prog fam dev := by
      rw [counter_prog_compose fam dev]
      exact (mvls_write_extends _ _ _ _).trans <| (mvls_wait_extends _ _ _).trans <|
        (mvls_counter_read_one_extends _ _ _).trans <|
        (mvls_counter_read_one_extends _ _ _).trans <|
        (mvls_counter_read_one_extends _ _ _).trans <|
        (mvls_counter_read_one_extends _ _ _).trans <|
        (mvls_counter_read_one_extends _ _ _).trans <|
        (mvls_counter_read_one_extends _ _ _).trans <|
        (mdio_prog_push_extends _ _).trans (mdio_prog_push_extends _ _)
    obtain ⟨t, ht⟩ := hpre
    refine ⟨mvls_wait dev [] (MVLS_REG MVLS_G1 0x1d), t, ?_, ?_⟩
    · rw [← ht]; simp [mdio_prog_push]
    · simp [counter_loop_offset, mdio_prog_push]
  · rw [counter_prog_compose fam dev, push_push_append]
    exact ⟨_, _, rfl⟩
  · intro p reg counter id val
    exact ⟨frame_write dev p reg val, frame_wait dev p reg, frame_read dev p reg,
      frame_wait_cmd p id, frame_counter_read_one dev p counter⟩

theorem counter_loop_register_frame_witness :
    reg_writers 1 (mvls_counter_exec_prog mvls_famliy.FAM_PERIDOT ⟨2⟩) 0 =
      [counter_loop_offset ⟨2⟩ - 1,
        (mvls_counter_exec_prog mvls_famliy.FAM_PERIDOT ⟨2⟩).length - 2] ∧
    counter_loop_offset ⟨2⟩ = 8 ∧
    (mvls_counter_exec_prog mvls_famliy.FAM_PERIDOT ⟨2⟩).length = 166 :=
  ⟨(counter_loop_register_frame mvls_famliy.FAM_PERIDOT ⟨2⟩).1, by decide!, by decide!⟩

/-! ### Claims about the LAG program -/

theorem emit_read_to_eq (dev : mvls_device) (p : List Insn) (off reg dst : Nat) :
    emit_offsets (mvls_read_to dev p reg dst) off = emit_offsets p off := by
  by_cases hd : dev.id = 0
  · rw [mvls_read_to_direct _ _ _ _ hd]; simp [emit_offsets_append, emit_offsets, INSN]
  · rw [mvls_read_to_indirect _ _ _ _ hd]; simp [emit_offsets_append, emit_offsets, INSN]

theorem emit_write_eq (dev : mvls_device) (p : List Insn) (off reg : Nat) (val : Arg) :
    emit_offsets (mvls_write dev p reg val) off = emit_offsets p off := by
  by_cases hd : dev.id = 0
  · rw [mvls_write_direct _ _ _ _ hd]; simp [emit_offsets_append, emit_offsets, INSN]
  · rw [mvls_write_indirect _ _ _ _ hd]; simp [emit_offsets_append, emit_offsets, INSN]

theorem emit_push_emit (p : List Insn) (off : Nat) (a b c : Arg) :
    (emit_offsets (mdio_prog_push p (INSN Op.EMIT a b c)) off).length =
      (emit_offsets p off).length + 1 := by
  simp [mdio_prog_push, emit_offsets_append, emit_offsets, INSN]

theorem emit_push_other (p : List Insn) (off : Nat) (i : Insn) (hi : i.op ≠ Op.EMIT) :
    emit_offsets (mdio_prog_push p i) off = emit_offsets p off := by
  simp [mdio_prog_push, emit_offsets_append, emit_offsets, hi]

theorem emit_lag_step (dev : mvls_device) (p : List Insn) (i : Nat) :
    (emit_offsets (mvls_lag_exec_lag dev p i) 0).length = (emit_offsets p 0).length + 1 := by
  unfold mvls_lag_exec_lag mvls_read
  rw [emit_push_emit, emit_read_to_eq, emit_write_eq]

theorem emit_mask_step (dev : mvls_device) (p : List Insn) (i : Nat) :
    (emit_offsets (mvls_lag_exec_mask dev p i) 0).length = (emit_offsets p 0).length + 1 := by
  unfold mvls_lag_exec_mask mvls_read
  rw [emit_push_emit, emit_read_to_eq, emit_write_eq, emit_push_other _ _ _ (by simp [INSN]),
    emit_push_other _ _ _ (by simp [INSN]), emit_read_to_eq]

theorem emit_foldl_count (f : List Insn → Nat → List Insn)
    (hf : ∀ p i, (emit_offsets (f p i) 0).length = (emit_offsets p 0).length + 1)
    (p : List Insn) (n : Nat) :
    (emit_offsets ((List.range n).foldl f p) 0).length = (emit_offsets p 0).length + n := by
  induction n with
  | zero => simp
  | succ n ih => rw [List.range_succ, List.foldl_append, List.foldl_cons, List.foldl_nil, hf, ih]; omega

theorem lag_step_extends (dev : mvls_device) (p : List Insn) (i : Nat) :
    p <+: mvls_lag_exec_lag dev p i := by
  unfold mvls_lag_exec_lag mvls_read
  exact (mvls_write_extends _ _ _ _).trans <| (mvls_read_to_extends _ _ _ _).trans
    (mdio_prog_push_extends _ _)

theorem mask_step_extends (dev : mvls_device) (p : List Insn) (i : Nat) :
    p <+: mvls_lag_exec_mask dev p i := by
  unfold mvls_lag_exec_mask mvls_read
  exact (mvls_read_to_extends _ _ _ _).trans <| (mdio_prog_push_extends _ _).trans <|
    (mdio_prog_push_extends _ _).trans <| (mvls_write_extends _ _ _ _).trans <|
    (mvls_read_to_extends _ _ _ _).trans (mdio_prog_push_extends _ _)

theorem foldl_extends (f : List Insn → Nat → List Insn) (hf : ∀ p i, p <+: f p i) :
    ∀ (l : List Nat) (p : List Insn), p <+: l.foldl f p := by
  intro l
  induction l with
  | nil => intro p; exact List.prefix_refl p
  | cons i l ih => intro p; exact (hf p i).trans (ih (f p i))

theorem foldl_range_step (f : List Insn → Nat → List Insn) (hf : ∀ p i, p <+: f p i)
    (p : List Insn) (n i : Nat) (hi : i < n) :
    f ((List.range i).foldl f p) i <+: (List.range n).foldl f p := by
  have hsplit : List.range n = List.range (i + 1) ++ (List.range (n - (i + 1))).map (i + 1 + ·) := by
    rw [← List.range_add]; congr 1; omega
  rw [hsplit, List.foldl_append, List.range_succ, List.foldl_append, List.foldl_cons,
    List.foldl_nil]
  exact foldl_extends f hf _ _

/-- C19: in the program built by `mvls_lag_exec`, for every LAG slot `i` in
0..15 the program contains, after exactly `i` earlier captures, the write of
`i << 11` to (Global2, 0x08), the read-back and a capture; for every mask slot
`i` in 0..7 it contains, after exactly `16 + i` earlier captures, the read of
(Global2, 0x07), the AND with 0x800, the OR with `i << 12`, the write of
working register 0 back to (Global2, 0x07), the read-back and a capture, the
two combining instructions turning the value `old` just read into
`(old & 0x800) | (i << 12)`; the program has 24 captures in all. -/
theorem lag_program_slots (engine : Engine) (dev : mvls_device) :
    (∀ i, i < 16 →
      mdio_prog_push
          (mvls_read dev
            (mvls_write dev ((List.range i).foldl (mvls_lag_exec_lag dev) [])
              (MVLS_REG MVLS_G2 0x08) (IMM (i <<< 11)))
            (MVLS_REG MVLS_G2 0x08))
          (INSN Op.EMIT (REG 0) Arg.none Arg.none)
        <+: (mvls_lag_exec engine dev ["lag"]).prog ∧
      (emit_offsets ((List.range i).foldl (mvls_lag_exec_lag dev) []) 0).length = i) ∧
    (∀ i, i < 8 →
      mdio_prog_push
          (mvls_read dev
            (mvls_write dev
              (mdio_prog_push
                (mdio_prog_push
                  (mvls_read dev
                    ((List.range i).foldl (mvls_lag_exec_mask dev)
                      ((List.range 16).foldl (mvls_lag_exec_lag dev) []))
                    (MVLS_REG MVLS_G2 0x07))
                  (INSN Op.AND (REG 0) (IMM 0x800) (REG 0)))
                (INSN Op.OR (REG 0) (IMM (i <<< 12)) (REG 0)))
              (MVLS_REG MVLS_G2 0x07) (REG 0))
            (MVLS_REG MVLS_G2 0x07))
          (INSN Op.EMIT (REG 0) Arg.none Arg.none)
        <+: (mvls_lag_exec engine dev ["lag"]).prog ∧
      (emit_offsets ((List.range i).foldl (mvls_lag_exec_mask dev)
        ((List.range 16).foldl (mvls_lag_exec_lag dev) [])) 0).length = 16 + i) ∧
    (∀ (rf : Nat → Nat) (i : Nat),
      alu_step (alu_step rf (INSN Op.AND (REG 0) (IMM 0x800) (REG 0)))
        (INSN Op.OR (REG 0) (IMM (i <<< 12)) (REG 0)) 0 = (rf 0 &&& 0x800) ||| (i <<< 12)) ∧
    (emit_offsets (mvls_lag_exec engine dev ["lag"]).prog 0).length = 24 ∧
    (mvls_lag_exec engine ⟨0⟩ ["lag"]).prog =
      ((List.range 16).flatMap fun i =>
        [INSN Op.WRITE (IMM 0x1c) (IMM 0x08) (IMM (i <<< 11)),
         INSN Op.READ (IMM 0x1c) (IMM 0x08) (REG 0),
         INSN Op.EMIT (REG 0) Arg.none Arg.none]) ++
      ((List.range 8).flatMap fun i =>
        [INSN Op.READ (IMM 0x1c) (IMM 0x07) (REG 0),
         INSN Op.AND (REG 0) (IMM 0x800) (REG 0),
         INSN Op.OR (REG 0) (IMM (i <<< 12)) (REG 0),
         INSN Op.WRITE (IMM 0x1c) (IMM 0x07) (REG 0),
         INSN Op.READ (IMM 0x1c) (IMM 0x07) (REG 0),
         INSN Op.EMIT (REG 0) Arg.none Arg.none]) := by
  refine ⟨?_, ?_, ?_, (lag_shape engine dev).1, ?_⟩
  · intro i hi
    constructor
    · rw [(lag_prog_eq engine dev).1]
      exact (foldl_range_step _ (lag_step_extends dev) [] 16 i hi).trans
        (foldl_extends _ (mask_step_extends dev) _ _)
    · rw [emit_foldl_count _ (emit_lag_step dev)]; simp [emit_offsets]
  · intro i hi
    constructor
    · rw [(lag_prog_eq engine dev).1]
      exact foldl_range_step _ (mask_step_extends dev) _ 8 i hi
    · rw [emit_foldl_count _ (emit_mask_step dev), emit_foldl_count _ (emit_lag_step dev)]
      simp [emit_offsets]
  · intro rf i
    exact alu_and_or rf _ _
  · rw [(lag_prog_eq engine ⟨0⟩).1]
    decide!

theorem lag_program_slots_witness :
    (emit_offsets ((List.range 3).foldl (mvls_lag_exec_lag ⟨5⟩) []) 0).length = 3 ∧
    (mvls_lag_exec (fun _ => ([], 0)) ⟨5⟩ ["lag"]).prog.length = 320 :=
  ⟨((lag_program_slots (fun _ => ([], 0)) ⟨5⟩).1 3 (by decide)).2, by decide!⟩

/-! ### Address parsing -/

theorem spec_digit_below (base : Nat) (hb : base ≤ 16) (c : Char) :
    (match spec_digit c with
      | some d => if d < base then some d else none
      | none => none) =
    (match digit_value c with
      | some d => if d < base then some d else none
      | none => none) := by
  have h0 : '0'.toNat = 48 := rfl
  have h9 : '9'.toNat = 57 := rfl
  have ha : 'a'.toNat = 97 := rfl
  have hf : 'f'.toNat = 102 := rfl
  have hA : 'A'.toNat = 65 := rfl
  have hF : 'F'.toNat = 70 := rfl
  unfold spec_digit digit_value
  simp only [h0, h9, ha, hf, hA, hF]
  generalize c.toNat = n
  split_ifs <;> simp only [] <;> split_ifs <;> first | rfl | omega | (congr 1; omega)

theorem spec_digit_step_none (base : Nat) (cs : List Char) :
    cs.foldl (spec_digit_step base) none = none := by
  induction cs with
  | nil => rfl
  | cons c cs ih => simpa [List.foldl_cons, spec_digit_step] using ih

theorem spec_digit_step_some (base acc : Nat) (c : Char) :
    spec_digit_step base (some acc) c =
      match (match spec_digit c with
        | some d => if d < base then some d else none
        | none => none) with
      | some d => some (acc * base + d)
      | none => none := by
  unfold spec_digit_step
  cases spec_digit c with
  | none => rfl
  | some d => simp only; split <;> rfl

theorem strtoul_scan_cons (base acc : Nat) (c : Char) (cs : List Char) :
    strtoul_scan base (c :: cs) acc =
      match (match digit_value c with
        | some d => if d < base then some d else none
        | none => none) with
      | some d => strtoul_scan base cs (acc * base + d)
      | none => (acc, c :: cs) := by
  rw [strtoul_scan]
  cases digit_value c with
  | none => rfl
  | some d => simp only; split <;> rfl

theorem spec_digits_scan (base : Nat) (hb : base ≤ 16) :
    ∀ (cs : List Char) (acc : Nat),
      cs.foldl (spec_digit_step base) (some acc) =
        if (strtoul_scan base cs acc).2 = [] then some (strtoul_scan base cs acc).1
        else none := by
  intro cs
  induction cs with
  | nil => intro acc; rfl
  | cons c cs ih =>
    intro acc
    rw [List.foldl_cons, spec_digit_step_some, strtoul_scan_cons, spec_digit_below base hb c]
    cases (match digit_value c with
        | some d => if d < base then some d else none
        | none => none) with
    | none => simp [spec_digit_step_none]
    | some d => exact ih _

theorem strtoul_unsigned (c : Char) (cs : List Char) (hsp : isspace c = false)
    (hp : c ≠ '+') (hm : c ≠ '-') (hex : Bool) (scan : Nat × List Char)
    (hhex : hex = (match c :: cs with
      | z :: x :: h :: _ =>
        z = '0' && (x = 'x' || x = 'X') &&
          (match digit_value h with | some d => d < 16 | none => false)
      | _ => false))
    (hscan : scan = if hex then strtoul_scan 16 ((c :: cs).drop 2) 0
      else if c = '0' then strtoul_scan 8 (c :: cs) 0 else strtoul_scan 10 (c :: cs) 0) :
    strtoul (c :: cs) =
      if (hex || decide (scan.2.length < (c :: cs).length)) = true then
        (if scan.1 > 2 ^ 64 - 1 then 2 ^ 64 - 1 else scan.1, scan.2.isEmpty)
      else (0, false) := by
  subst hhex hscan
  unfold strtoul
  simp only [List.dropWhile, hsp]
  simp [hp, hm]

theorem checked_number_finish (conv : Bool) (scan : Nat × List Char)
    (hconv : scan.2 = [] → conv = true) :
    (if (if conv = true then
          ((if scan.1 > 2 ^ 64 - 1 then 2 ^ 64 - 1 else scan.1), scan.2.isEmpty)
        else ((0 : Nat), false)).2 = true ∧
        (if conv = true then
          ((if scan.1 > 2 ^ 64 - 1 then 2 ^ 64 - 1 else scan.1), scan.2.isEmpty)
        else ((0 : Nat), false)).1 ≤ 31
      then some (if conv = true then
          ((if scan.1 > 2 ^ 64 - 1 then 2 ^ 64 - 1 else scan.1), scan.2.isEmpty)
        else ((0 : Nat), false)).1
      else none) =
    match (if scan.2 = [] then some scan.1 else none) with
    | some v => if v ≤ 31 then some v else none
    | none => none := by
  by_cases hnil : scan.2 = []
  · have hc := hconv hnil
    subst hc
    rw [if_pos rfl, if_pos hnil]
    simp only [hnil, List.isEmpty_nil, true_and]
    by_cases hbig : scan.1 > 2 ^ 64 - 1
    · have h31 : ¬ scan.1 ≤ 31 := by omega
      rw [if_pos hbig, if_neg (by decide), if_neg h31]
    · rw [if_neg hbig]
  · have he : scan.2.isEmpty = false := by
      cases h : scan.2 with
      | nil => exact absurd h hnil
      | cons a b => rfl
    rw [if_neg hnil]
    cases conv <;> simp [he]

theorem strtoul_scan_zero (base : Nat) (hb : 0 < base) (cs : List Char) :
    strtoul_scan base ('0' :: cs) 0 = strtoul_scan base cs 0 := by
  rw [strtoul_scan_cons]
  have : digit_value '0' = some 0 := by decide
  simp [this, hb]

theorem checked_number_unsigned (c : Char) (cs : List Char) (hsp : isspace c = false)
    (hp : c ≠ '+') (hm : c ≠ '-') :
    checked_number (c :: cs) = spec_number (c :: cs) := by
  unfold checked_number spec_number
  rw [strtoul_unsigned c cs hsp hp hm _ _ rfl rfl,
    checked_number_finish _ _
      (fun h => by rw [Bool.or_eq_true]; right; rw [decide_eq_true_eq, h]; simp)]
  congr 1
  unfold spec_numeral spec_digits
  by_cases h0 : c = '0'
  · subst h0
    simp only [if_true]
    cases cs with
    | nil =>
      rw [spec_digits_scan 8 (by decide)]
      simp [strtoul_scan_zero]
    | cons x cs2 =>
      cases cs2 with
      | nil =>
        rw [spec_digits_scan 8 (by decide)]
        simp [strtoul_scan_zero]
      | cons h more =>
        by_cases hx : x = 'x' ∨ x = 'X'
        · simp only [hx, if_true]
          rw [spec_digits_scan 16 (by decide)]
          have hxb : (decide (x = 'x') || decide (x = 'X')) = true := by simpa using hx
          by_cases hh : (match digit_value h with
              | some d => decide (d < 16) | none => false) = true
          · simp [hh, hxb]
          · have hh2 : (match digit_value h with
                | some d => decide (d < 16) | none => false) = false := by
              simpa using hh
            have hs16 : (strtoul_scan 16 (h :: more) 0).2 ≠ [] := by
              rw [strtoul_scan_cons]
              cases hd : digit_value h with
              | none => simp
              | some d =>
                rw [hd] at hh2
                have : ¬ d < 16 := by simpa using hh2
                simp [this]
            have hxd : (strtoul_scan 8 (x :: h :: more) 0).2 ≠ [] := by
              rw [strtoul_scan_cons]
              rcases hx with hx | hx <;> subst hx <;>
                simp [show digit_value 'x' = some 33 by decide,
                  show digit_value 'X' = some 33 by decide]
            simp only [hh2, hxb, Bool.and_false, Bool.false_eq_true, if_false, hs16,
              strtoul_scan_zero 8 (by decide), hxd]
        · have hxb : (decide (x = 'x') || decide (x = 'X')) = false := by simpa using hx
          simp only [hx, if_false]
          rw [spec_digits_scan 8 (by decide)]
          simp [hxb, strtoul_scan_zero]
  · simp only [h0, if_false]
    rw [spec_digits_scan 10 (by decide)]
    cases cs with
    | nil => simp [h0]
    | cons x cs2 =>
      cases cs2 with
      | nil => simp [h0]
      | cons h more => simp [h0]


theorem split_colon_head (cs : List Char) :
    split_colon cs = cs.takeWhile (fun c => c != ':') ::
      (match cs.dropWhile (fun c => c != ':') with
        | [] => []
        | _ :: r => split_colon r) := by
  induction cs with
  | nil => rfl
  | cons c cs ih =>
    by_cases h : c = ':'
    · subst h
      simp [split_colon, List.takeWhile, List.dropWhile]
    · have hne : (c != ':') = true := by simpa using h
      rw [split_colon, if_neg h, ih]
      simp [List.takeWhile, List.dropWhile, hne]

theorem strtok_fields (s : List Char) :
    (split_colon s).filter (fun f => !f.isEmpty) =
      match strtok ':' s with
      | none => []
      | some (f, st) => f :: (split_colon st).filter (fun f => !f.isEmpty) := by
  induction s with
  | nil => rfl
  | cons c cs ih =>
    by_cases h : c = ':'
    · subst h
      have e : strtok ':' (':' :: cs) = strtok ':' cs := by
        simp [strtok, List.dropWhile]
      rw [e, ← ih]
      simp [split_colon]
    · have hne : (c != ':') = true := by simpa using h
      have heq : (c == ':') = false := by simpa using h
      have e : strtok ':' (c :: cs) =
          some ((c :: cs).takeWhile (fun c => c != ':'),
            ((c :: cs).dropWhile (fun c => c != ':')).drop 1) := by
        simp [strtok, List.dropWhile, heq]
      rw [e, split_colon_head (c :: cs)]
      simp only [List.takeWhile, List.dropWhile, hne]
      cases hd : cs.dropWhile (fun c => c != ':') with
      | nil => simp [split_colon]
      | cons d r => simp

theorem checked_number_of_strtoul (t : List Char) :
    checked_number t = if ¬ (strtoul t).2 then none
      else if (strtoul t).1 > 31 then none else some (strtoul t).1 := by
  unfold checked_number
  by_cases h1 : (strtoul t).2 = true
  · by_cases h2 : (strtoul t).1 ≤ 31
    · simp [h1, h2]
    · have h3 : (strtoul t).1 > 31 := by omega
      simp [h1, h3]
  · simp [h1]

theorem parse_reg_pack_bound : ∀ (port reg : Fin 32),
    ((port.val % 65536) <<< 16 ||| reg.val) % 2 ^ 32 = port.val <<< 16 ||| reg.val ∧
    (port.val <<< 16 ||| reg.val) >>> 16 = port.val ∧
    (port.val <<< 16 ||| reg.val) &&& 0xffff = reg.val := by
  decide

theorem checked_number_le (t : List Char) (n : Nat) (h : checked_number t = some n) :
    n ≤ 31 := by
  unfold checked_number at h
  split at h
  · rename_i hc
    cases h
    exact hc.2
  · cases h

theorem checked_port_le (t : List Char) (n : Nat) (h : checked_port t = some n) : n ≤ 31 := by
  unfold checked_port at h
  split at h
  · cases h; decide
  · split at h
    · cases h; decide
    · exact checked_number_le t n h

theorem parse_reg_port_eq (tok : List Char) :
    (if tok = "global1".toList ∨ tok = "g1".toList then (Except.ok MVLS_G1 : Except Int Nat)
      else if tok = "global2".toList ∨ tok = "g2".toList then Except.ok MVLS_G2
      else if ¬ (strtoul tok).2 then Except.error EINVAL
      else if (strtoul tok).1 > 31 then Except.error EINVAL
      else Except.ok ((strtoul tok).1 % 65536)) =
    match checked_port tok with
    | some p => Except.ok p
    | none => Except.error EINVAL := by
  unfold checked_port
  by_cases h1 : tok = "global1".toList ∨ tok = "g1".toList
  · simp only [h1, if_true]
  · by_cases h2 : tok = "global2".toList ∨ tok = "g2".toList
    · simp only [h1, h2, if_true, if_false]
    · simp only [h1, h2, if_false]
      rw [checked_number_of_strtoul]
      by_cases h3 : ¬ (strtoul tok).2
      · rw [if_pos h3, if_pos h3]
      · rw [if_neg h3, if_neg h3]
        by_cases h4 : (strtoul tok).1 > 31
        · rw [if_pos h4, if_pos h4]
        · have : (strtoul tok).1 % 65536 = (strtoul tok).1 := Nat.mod_eq_of_lt (by omega)
          rw [if_neg h4, if_neg h4, this]

theorem mvls_parse_reg_eq_checked (s : String) (rest : List String) :
    mvls_parse_reg false (s :: rest) =
      match checked_parse_reg s with
      | some a => ⟨0, some a, rest⟩
      | none => ⟨EINVAL, none, rest⟩ := by
  unfold mvls_parse_reg checked_parse_reg spec_fields
  simp only [argv_pop, Bool.false_eq_true, if_false]
  rw [strtok_fields s.toList]
  cases h1 : strtok ':' s.toList with
  | none => rfl
  | some ts =>
    obtain ⟨tok, state⟩ := ts
    simp only
    rw [parse_reg_port_eq tok, strtok_fields state]
    cases h2 : strtok ':' state with
    | none =>
      simp only
      cases hp : checked_port tok <;> rfl
    | some ts2 =>
      obtain ⟨tok2, state2⟩ := ts2
      simp only
      cases hp : checked_port tok with
      | none => rfl
      | some port =>
        simp only
        rw [checked_number_of_strtoul tok2]
        by_cases h3 : ¬ (strtoul tok2).2
        · rw [if_pos h3, if_pos h3]
        · rw [if_neg h3, if_neg h3]
          by_cases h4 : (strtoul tok2).1 > 31
          · rw [if_pos h4, if_pos h4]
          · rw [if_neg h4, if_neg h4]
            simp only
            have hport := checked_port_le tok port hp
            have hb := (parse_reg_pack_bound ⟨port, by omega⟩ ⟨(strtoul tok2).1, by omega⟩).1
            simp only at hb
            have hm : port % 65536 = port := Nat.mod_eq_of_lt (by omega)
            rw [hm] at hb
            rw [hb]

theorem checked_parse_reg_bound (s : String) (a : Nat) (h : checked_parse_reg s = some a) :
    a >>> 16 ≤ 31 ∧ a &&& 0xffff ≤ 31 ∧ a = MVLS_REG (a >>> 16) (a &&& 0xffff) := by
  unfold checked_parse_reg at h
  split at h
  · rename_i p r _ _
    split at h
    · rename_i port reg hp hr
      cases h
      have h1 := checked_port_le p port hp
      have h2 := checked_number_le r reg hr
      obtain ⟨-, e1, e2⟩ := parse_reg_pack_bound ⟨port, by omega⟩ ⟨reg, by omega⟩
      simp only at e1 e2
      rw [e1, e2]
      exact ⟨h1, h2, rfl⟩
    · cases h
  · cases h

theorem unsigned_field_cons (f : List Char) (hne : f ≠ []) (hu : unsigned_field f = true) :
    ∃ c cs, f = c :: cs ∧ isspace c = false ∧ c ≠ '+' ∧ c ≠ '-' := by
  cases f with
  | nil => exact absurd rfl hne
  | cons c cs =>
    simp only [unsigned_field, Bool.and_eq_true, Bool.not_eq_true', bne_iff_ne, ne_eq] at hu
    exact ⟨c, cs, rfl, hu.1.1, hu.1.2, hu.2⟩

theorem checked_number_eq_spec (f : List Char) (hne : f ≠ []) (hu : unsigned_field f = true) :
    checked_number f = spec_number f := by
  obtain ⟨c, cs, rfl, hsp, hp, hm⟩ := unsigned_field_cons f hne hu
  exact checked_number_unsigned c cs hsp hp hm

theorem checked_port_eq_spec (f : List Char) (hne : f ≠ []) (hu : unsigned_field f = true) :
    checked_port f = spec_port f := by
  unfold checked_port spec_port
  rw [checked_number_eq_spec f hne hu]
  by_cases h1 : f = "global1".toList ∨ f = "g1".toList
  · have h1b : f = "g1".toList ∨ f = "global1".toList := h1.symm
    simp only [h1, h1b, if_true]; rfl
  · have h1b : ¬ (f = "g1".toList ∨ f = "global1".toList) := fun h => h1 h.symm
    by_cases h2 : f = "global2".toList ∨ f = "g2".toList
    · have h2b : f = "g2".toList ∨ f = "global2".toList := h2.symm
      simp only [h1, h1b, h2, h2b, if_true, if_false]; rfl
    · have h2b : ¬ (f = "g2".toList ∨ f = "global2".toList) := fun h => h2 h.symm
      simp only [h1, h1b, h2, h2b, if_false]

theorem spec_fields_ne_nil (s : String) (f : List Char) (hf : f ∈ spec_fields s) : f ≠ [] := by
  unfold spec_fields at hf
  rw [List.mem_filter] at hf
  intro h
  rw [h] at hf
  simp at hf

theorem checked_parse_reg_eq_spec (s : String)
    (hu : ∀ f ∈ (spec_fields s).take 2, unsigned_field f = true) :
    checked_parse_reg s = spec_parse_reg s := by
  unfold checked_parse_reg spec_parse_reg
  cases hfs : spec_fields s with
  | nil => rfl
  | cons p tl =>
    cases tl with
    | nil => rfl
    | cons r more =>
      have hp : p ∈ spec_fields s := by rw [hfs]; simp
      have hr : r ∈ spec_fields s := by rw [hfs]; simp
      have hup : unsigned_field p = true := hu p (by rw [hfs]; simp)
      have hur : unsigned_field r = true := hu r (by rw [hfs]; simp)
      simp only
      rw [checked_port_eq_spec p (spec_fields_ne_nil s p hp) hup,
        checked_number_eq_spec r (spec_fields_ne_nil s r hr) hur]


/-- C15 as stated fails: an argument with extra text after the register part is
accepted, and so is one with an empty leading or middle field; a numeral with
a leading 0 is read in base 8, so the number 08 is refused and 010 is stored as
8; and a negative numeral that wraps around to a value in 0-31 is accepted. -/
theorem mvls_parse_reg_accepts_extra_text :
    mvls_parse_reg false ["1:2:junk"] = ⟨0, some 0x10002, []⟩ ∧
    mvls_parse_reg false [":1::2"] = ⟨0, some 0x10002, []⟩ ∧
    mvls_parse_reg false ["08:1"] = ⟨EINVAL, none, []⟩ ∧
    mvls_parse_reg false ["010:1"] = ⟨0, some 0x80001, []⟩ ∧
    mvls_parse_reg false ["-18446744073709551615:1"] = ⟨0, some 0x10001, []⟩ := by
  decide

/-- C15 amended: `mvls_parse_reg`, called without a range end, looks only at
the first two non-empty `:`-separated fields P and R of its argument (further
fields are ignored).  When neither begins with white space or a sign, it
succeeds exactly when P is `g1`, `global1`, `g2`, `global2` or a number in 0-31
and R is a number in 0-31 (an unsigned numeral: hexadecimal after `0x`, octal
after a leading `0`, decimal otherwise), and then stores `(port << 16) | R`
with port 0x1b for g1/global1, 0x1c for g2/global2 and the number otherwise;
otherwise it returns `EINVAL`.  A missing argument or one with fewer than two
non-empty fields gives `EINVAL`.  For every argument, a success stores an
address with port <= 31 and register <= 31, and an error stores nothing.  With
a range end it returns `ENOSYS`, stores nothing and consumes no argument. -/
theorem mvls_parse_reg_grammar (argv : List String) :
    (∀ s rest, argv = s :: rest →
      (∀ f ∈ (spec_fields s).take 2, unsigned_field f = true) →
      mvls_parse_reg false argv =
        match spec_parse_reg s with
        | some a => ⟨0, some a, rest⟩
        | none => ⟨EINVAL, none, rest⟩) ∧
    (∀ s rest, argv = s :: rest → (spec_fields s).length < 2 →
      mvls_parse_reg false argv = ⟨EINVAL, none, rest⟩) ∧
    (argv = [] → mvls_parse_reg false argv = ⟨EINVAL, none, []⟩) ∧
    ((mvls_parse_reg false argv).ret = 0 →
      ∃ a, (mvls_parse_reg false argv).regs = some a ∧
        a >>> 16 ≤ 31 ∧ a &&& 0xffff ≤ 31 ∧ a = MVLS_REG (a >>> 16) (a &&& 0xffff)) ∧
    ((mvls_parse_reg false argv).ret ≠ 0 →
      (mvls_parse_reg false argv).ret = EINVAL ∧ (mvls_parse_reg false argv).regs = none) ∧
    mvls_parse_reg true argv = ⟨ENOSYS, none, argv⟩ ∧
    (∀ p r : Nat, p ≤ 31 → r ≤ 31 →
      spec_parse_reg (toString p ++ ":" ++ toString r) = some (MVLS_REG p r) ∧
      spec_parse_reg ("g1:" ++ toString r) = some (MVLS_REG 0x1b r) ∧
      spec_parse_reg ("global1:" ++ toString r) = some (MVLS_REG 0x1b r) ∧
      spec_parse_reg ("g2:" ++ toString r) = some (MVLS_REG 0x1c r) ∧
      spec_parse_reg ("global2:" ++ toString r) = some (MVLS_REG 0x1c r) ∧
      mvls_parse_reg false [toString p ++ ":" ++ toString r] =
        ⟨0, some (MVLS_REG p r), []⟩ ∧
      mvls_parse_reg false ["g1:" ++ toString r] = ⟨0, some (MVLS_REG 0x1b r), []⟩ ∧
      mvls_parse_reg false ["global1:" ++ toString r] = ⟨0, some (MVLS_REG 0x1b r), []⟩ ∧
      mvls_parse_reg false ["g2:" ++ toString r] = ⟨0, some (MVLS_REG 0x1c r), []⟩ ∧
      mvls_parse_reg false ["global2:" ++ toString r] = ⟨0, some (MVLS_REG 0x1c r), []⟩) ∧
    spec_parse_reg "1" = none ∧
    spec_parse_reg "1:" = none ∧
    spec_parse_reg "x:2" = none ∧
    spec_parse_reg "1:2x" = none ∧
    spec_parse_reg "32:2" = none ∧
    spec_parse_reg "1:32" = none ∧
    spec_parse_reg "1:2:junk" = some 0x10002 := by
  have hcanon : ∀ p r : Fin 32,
      spec_parse_reg (toString p.val ++ ":" ++ toString r.val) = some (MVLS_REG p.val r.val) ∧
      spec_parse_reg ("g1:" ++ toString r.val) = some (MVLS_REG 0x1b r.val) ∧
      spec_parse_reg ("global1:" ++ toString r.val) = some (MVLS_REG 0x1b r.val) ∧
      spec_parse_reg ("g2:" ++ toString r.val) = some (MVLS_REG 0x1c r.val) ∧
      spec_parse_reg ("global2:" ++ toString r.val) = some (MVLS_REG 0x1c r.val) ∧
      mvls_parse_reg false [toString p.val ++ ":" ++ toString r.val] =
        ⟨0, some (MVLS_REG p.val r.val), []⟩ ∧
      mvls_parse_reg false ["g1:" ++ toString r.val] = ⟨0, some (MVLS_REG 0x1b r.val), []⟩ ∧
      mvls_parse_reg false ["global1:" ++ toString r.val] =
        ⟨0, some (MVLS_REG 0x1b r.val), []⟩ ∧
      mvls_parse_reg false ["g2:" ++ toString r.val] = ⟨0, some (MVLS_REG 0x1c r.val), []⟩ ∧
      mvls_parse_reg false ["global2:" ++ toString r.val] =
        ⟨0, some (MVLS_REG 0x1c r.val), []⟩ := by
    decide!
  refine ⟨?_, ?_, ?_, ?_, ?_, rfl, ?_, by decide, by decide, by decide, by decide, by decide,
    by decide, by decide⟩
  · intro s rest h hu
    subst h
    rw [mvls_parse_reg_eq_checked, checked_parse_reg_eq_spec s hu]
  · intro s rest h hlen
    subst h
    rw [mvls_parse_reg_eq_checked]
    have hnone : checked_parse_reg s = none := by
      unfold checked_parse_reg
      cases hfs : spec_fields s with
      | nil => rfl
      | cons p tl =>
        cases tl with
        | nil => rfl
        | cons r more => rw [hfs] at hlen; simp at hlen; omega
    rw [hnone]
  · intro h; subst h; rfl
  · cases argv with
    | nil => intro h; exact absurd h (show (EINVAL : Int) ≠ 0 by decide)
    | cons s rest =>
      rw [mvls_parse_reg_eq_checked]
      cases hs : checked_parse_reg s with
      | none => intro h; exact absurd h (show (EINVAL : Int) ≠ 0 by decide)
      | some a => intro _; exact ⟨a, rfl, checked_parse_reg_bound s a hs⟩
  · cases argv with
    | nil => intro _; exact ⟨rfl, rfl⟩
    | cons s rest =>
      rw [mvls_parse_reg_eq_checked]
      cases hs : checked_parse_reg s with
      | none => intro _; exact ⟨rfl, rfl⟩
      | some a => intro h; exact absurd rfl h
  · intro p r hp hr
    exact hcanon ⟨p, by omega⟩ ⟨r, by omega⟩

theorem mvls_parse_reg_grammar_witness :
    mvls_parse_reg false ["g1:0x1f:junk", "7"] = ⟨0, some 0x1b001f, ["7"]⟩ ∧
    mvls_parse_reg false ["0x20:1"] = ⟨EINVAL, none, []⟩ :=
  ⟨(mvls_parse_reg_grammar ["g1:0x1f:junk", "7"]).1 "g1:0x1f:junk" ["7"] rfl (by decide),
   (mvls_parse_reg_grammar ["0x20:1"]).1 "0x20:1" [] rfl (by decide)⟩

end Mvls
